import Mathlib

set_option linter.unusedVariables false

/-!
Verification development for the VM bridge (VMBridge.h / wrapper.h).

The repository ships the C declarations of the bridge surface
(`src/crates/libcrun-shim/src/macos/VMBridge.h`); the implementation behind
them is not part of the source tree, so the lifecycle state machine, the
async operation gateway, device-configuration validation and the vsock
channel opener are modelled from the specification and verified against it.
The C declarations themselves are embedded verbatim as data, so that
interface-shape claims are settled against the actual header.
-/

namespace VMBridge

/-- Lifecycle states of a VM instance, spec section 4.3. -/
inductive LifecycleState where
  | Created
  | Starting
  | Running
  | Stopping
  | Stopped
  | Error
deriving DecidableEq

/-- Modelled from the spec: the transition taken by a start request
(`Created -> Starting`); `none` means the guard rejects the request.
The implementation of `vm_bridge_start_vm` is not in the source tree. -/
def startTransition : LifecycleState → Option LifecycleState
  | .Created => some .Starting
  | _ => none

/-- Modelled from the spec: the transition taken by a stop request
(`Running -> Stopping`); `none` means the guard rejects the request. -/
def stopTransition : LifecycleState → Option LifecycleState
  | .Running => some .Stopping
  | _ => none

/-- Modelled from the spec: state reached when the engine reports completion
of the outstanding operation (`Starting -> Running | Error`,
`Stopping -> Stopped | Error`); other states are unaffected. -/
def engineTransition : LifecycleState → Bool → LifecycleState
  | .Starting, true => .Running
  | .Starting, false => .Error
  | .Stopping, true => .Stopped
  | .Stopping, false => .Error
  | s, _ => s

/-- One row of the spec's transition table holds between two states. -/
def tableStep : LifecycleState → LifecycleState → Bool
  | .Created, .Starting => true
  | .Starting, .Running => true
  | .Starting, .Error => true
  | .Running, .Stopping => true
  | .Stopping, .Stopped => true
  | .Stopping, .Error => true
  | _, _ => false

/-- Terminal lifecycle states (spec section 4.3). -/
def isTerminal (s : LifecycleState) : Bool :=
  s = LifecycleState.Stopped || s = LifecycleState.Error

/-- The pure state predicate behind `vm_bridge_can_start`. -/
def canStartState (s : LifecycleState) : Bool :=
  (startTransition s).isSome

/-- The pure state predicate behind `vm_bridge_can_stop`. -/
def canStopState (s : LifecycleState) : Bool :=
  (stopTransition s).isSome

/-- One disk entry of a device configuration (spec section 3). -/
structure DiskSpec where
  path : String
  size : Nat
  read_only : Bool

/-- Network mode of a device configuration (spec section 3). -/
inductive NetworkMode where
  | offline
  | bridged
  | other (mode : String)

/-- Device configuration (spec section 3). -/
structure DeviceConfig where
  kernel_path : String
  initramfs_path : Option String
  memory_bytes : Nat
  cpu_count : Nat
  disks : List DiskSpec
  network : NetworkMode
  bridge_interface : Option String

/-- Host environment consulted by validation: readable files, resource
limits and the current network interface enumeration. -/
structure Host where
  files : List String
  max_memory : Nat
  max_cpus : Nat
  interfaces : List String

/-- Configuration errors surfaced synchronously (spec section 7). -/
inductive ConfigError where
  | badBootImage (path : String)
  | badMemory
  | badCpu
  | badDisk (path : String)
  | badBridge (interface : String)

/-- Initramfs path present but not readable on the host. -/
def initramfsMissing (host : Host) (cfg : DeviceConfig) : Option String :=
  match cfg.initramfs_path with
  | none => none
  | some p => if host.files.contains p then none else some p

/-- A disk is usable: read-only disks must exist, writable disks may be
created (spec section 4.1). -/
def diskUsable (host : Host) (d : DiskSpec) : Bool :=
  if d.read_only then host.files.contains d.path else true

/-- First disk of the list that is not usable, if any. -/
def firstBadDisk (host : Host) : List DiskSpec → Option DiskSpec
  | [] => none
  | d :: ds => if diskUsable host d then firstBadDisk host ds else some d

/-- Bridged network mode requires the named interface to appear in the
current host enumeration (spec section 4.1). -/
def bridgeProblem (host : Host) (cfg : DeviceConfig) : Option ConfigError :=
  match cfg.network with
  | .bridged =>
    match cfg.bridge_interface with
    | none => some (.badBridge "")
    | some nm => if host.interfaces.contains nm then none else some (.badBridge nm)
  | _ => none

/-- Modelled from the spec: `validate(config)` of section 4.1, the checks in
order, short-circuiting on the first failure. The implementation behind
`vm_bridge_create_vm` is not in the source tree. -/
def validate (host : Host) (cfg : DeviceConfig) : Except ConfigError DeviceConfig :=
  if !host.files.contains cfg.kernel_path then
    .error (.badBootImage cfg.kernel_path)
  else
    match initramfsMissing host cfg with
    | some p => .error (.badBootImage p)
    | none =>
      if cfg.memory_bytes = 0 || host.max_memory < cfg.memory_bytes then
        .error .badMemory
      else if cfg.cpu_count = 0 || host.max_cpus < cfg.cpu_count then
        .error .badCpu
      else
        match firstBadDisk host cfg.disks with
        | some d => .error (.badDisk d.path)
        | none =>
          match bridgeProblem host cfg with
          | some e => .error e
          | none => .ok cfg

/-- A VM instance behind a live handle: its lifecycle state (absent until a
create succeeds, since the engine object is allocated lazily) and the
request id of the outstanding start/stop operation, if any. -/
structure VMInstance where
  vm : Option LifecycleState
  pendingReq : Option Nat

/-- Modelled from the spec: the bridge registry. Handles are process-local
identifiers; `orphans` holds request ids whose handle was destroyed while
the operation was still outstanding (their eventual completion must still
fire, reporting failure); `vsockPending` holds outstanding vsock connection
requests. -/
structure BridgeState where
  instances : List (Nat × VMInstance)
  nextHandle : Nat
  nextReq : Nat
  orphans : List Nat
  vsockPending : List Nat

/-- The empty bridge: no handles, no outstanding work. -/
def BridgeState.init : BridgeState := ⟨[], 0, 0, [], []⟩

/-- Look a handle up in the registry. -/
def lookupInstance (b : BridgeState) (h : Nat) : Option VMInstance :=
  b.instances.lookup h

/-- Replace the instance stored under handle `h`. -/
def updateInstance (l : List (Nat × VMInstance)) (h : Nat) (j : VMInstance) :
    List (Nat × VMInstance) :=
  l.map (fun p => if p.1 = h then (h, j) else p)

/-- Remove every entry stored under handle `h`. -/
def removeKey (l : List (Nat × VMInstance)) (h : Nat) : List (Nat × VMInstance) :=
  l.filter (fun p => !(p.1 == h))

/-- Observable outputs of a bridge step: synchronous rejections, request
acceptances, completion callback invocations, engine-level VM allocation
calls, and vsock callback invocations. -/
inductive Output where
  | accepted (req : Nat)
  | completion (req : Nat) (success : Bool) (error_message : Option String)
  | rejected (message : String)
  | engineCreate (handle : Nat)
  | vsockAccepted (req : Nat)
  | vsockCb (req : Nat) (fd : Int) (error_message : Option String)

/-- Modelled from the spec: `create_handle` — allocates a fresh opaque
handle immediately; the engine object comes later, on a successful create. -/
def vm_bridge_create (b : BridgeState) : BridgeState × Nat :=
  (⟨(b.nextHandle, ⟨none, none⟩) :: b.instances,
    b.nextHandle + 1, b.nextReq, b.orphans, b.vsockPending⟩,
   b.nextHandle)

/-- Modelled from the spec: `destroy_handle` — idempotent, safe in any
state; if an operation is outstanding it is not aborted, but its eventual
completion callback must report failure, so its request id is kept in
`orphans`. -/
def vm_bridge_destroy (b : BridgeState) (h : Nat) : BridgeState :=
  match lookupInstance b h with
  | none => b
  | some i =>
    { b with
      instances := removeKey b.instances h,
      orphans :=
        match i.pendingReq with
        | some r => r :: b.orphans
        | none => b.orphans }

/-- Modelled from the spec: the core of VM creation — synchronous per the
header (`vm_bridge_create_vm` returns `bool` and registers no callback):
fails fast if the handle is unknown or already has a live engine object or
if the configuration fails validation; only on success is the engine-level
allocation performed. -/
def createVmCore (host : Host) (b : BridgeState) (h : Nat) (cfg : DeviceConfig) :
    BridgeState × Bool × List Output :=
  match lookupInstance b h with
  | none => (b, false, [])
  | some i =>
    match i.vm with
    | some _ => (b, false, [])
    | none =>
      match validate host cfg with
      | .error _ => (b, false, [])
      | .ok _ =>
        ({ b with instances := updateInstance b.instances h ⟨some .Created, i.pendingReq⟩ },
         true, [.engineCreate h])

/-- Build the disk list of `vm_bridge_create_vm_full` from its parallel
arrays, reading `disk_count` entries. -/
def mkDisks : List String → List Nat → List Bool → Nat → List DiskSpec
  | _, _, _, 0 => []
  | p :: ps, s :: ss, r :: rs, n + 1 => ⟨p, s, r⟩ :: mkDisks ps ss rs n
  | _, _, _, _ => []

/-- Parse the network mode string of the extended creation entry point. -/
def parseNetworkMode (s : String) : NetworkMode :=
  if s = "none" then .offline
  else if s = "bridged" then .bridged
  else .other s

/-- Modelled from the spec: `vm_bridge_create_vm_full`, the extended
creation entry point taking parallel disk arrays and a network mode. -/
def vm_bridge_create_vm_full (host : Host) (b : BridgeState) (h : Nat)
    (kernel_path : String) (initramfs_path : Option String)
    (memory_bytes : Nat) (cpu_count : Nat)
    (disk_paths : List String) (disk_sizes : List Nat) (disk_read_only : List Bool)
    (disk_count : Nat) (network_mode : String) (bridge_interface : Option String) :
    BridgeState × Bool × List Output :=
  createVmCore host b h
    ⟨kernel_path, initramfs_path, memory_bytes, cpu_count,
     mkDisks disk_paths disk_sizes disk_read_only disk_count,
     parseNetworkMode network_mode, bridge_interface⟩

/-- Modelled from the spec: `vm_bridge_create_vm`, the minimal creation
entry point — no disks, no network. Written with its own validation chain
(only the checks that apply to a diskless, network-less configuration) so
that its equivalence with the extended entry point is a theorem, not a
definition. -/
def vm_bridge_create_vm (host : Host) (b : BridgeState) (h : Nat)
    (kernel_path : String) (initramfs_path : Option String)
    (memory_bytes : Nat) (cpu_count : Nat) :
    BridgeState × Bool × List Output :=
  match lookupInstance b h with
  | none => (b, false, [])
  | some i =>
    match i.vm with
    | some _ => (b, false, [])
    | none =>
      if host.files.contains kernel_path
          && (match initramfs_path with
              | none => true
              | some p => host.files.contains p)
          && decide (0 < memory_bytes) && decide (memory_bytes ≤ host.max_memory)
          && decide (0 < cpu_count) && decide (cpu_count ≤ host.max_cpus) then
        ({ b with instances := updateInstance b.instances h ⟨some .Created, i.pendingReq⟩ },
         true, [.engineCreate h])
      else
        (b, false, [])

/-- Rejection message for a request on an unknown or destroyed handle. -/
def unknownHandleMsg : String := "unknown handle"

/-- Rejection message when an operation is already outstanding. -/
def busyMsg : String := "operation already outstanding"

/-- Rejection message when no VM has been created on the handle yet. -/
def noVmMsg : String := "no VM has been created on this handle"

/-- Rejection message when the lifecycle guard forbids the request. -/
def stateErrorMsg : String := "operation not permitted in current state"

/-- Rejection message for a vsock request on a non-running instance. -/
def notRunningMsg : String := "instance is not running"

/-- Completion message delivered when the handle was destroyed while the
operation was still outstanding. -/
def destroyedMsg : String := "instance destroyed while operation was outstanding"

/-- Modelled from the spec: `vm_bridge_start_vm` — acquires the
per-instance exclusive token, checks the lifecycle guard, and either
accepts the request (allocating a fresh request id, moving to `Starting`)
or rejects it synchronously before any asynchronous work begins. -/
def vm_bridge_start_vm (b : BridgeState) (h : Nat) : BridgeState × List Output :=
  match lookupInstance b h with
  | none => (b, [.rejected unknownHandleMsg])
  | some i =>
    match i.pendingReq with
    | some _ => (b, [.rejected busyMsg])
    | none =>
      match i.vm with
      | none => (b, [.rejected noVmMsg])
      | some s =>
        match startTransition s with
        | none => (b, [.rejected stateErrorMsg])
        | some s2 =>
          ({ b with
             instances := updateInstance b.instances h ⟨some s2, some b.nextReq⟩,
             nextReq := b.nextReq + 1 },
           [.accepted b.nextReq])

/-- Modelled from the spec: `vm_bridge_stop_vm`, symmetric to
`vm_bridge_start_vm` with the stop guard. -/
def vm_bridge_stop_vm (b : BridgeState) (h : Nat) : BridgeState × List Output :=
  match lookupInstance b h with
  | none => (b, [.rejected unknownHandleMsg])
  | some i =>
    match i.pendingReq with
    | some _ => (b, [.rejected busyMsg])
    | none =>
      match i.vm with
      | none => (b, [.rejected noVmMsg])
      | some s =>
        match stopTransition s with
        | none => (b, [.rejected stateErrorMsg])
        | some s2 =>
          ({ b with
             instances := updateInstance b.instances h ⟨some s2, some b.nextReq⟩,
             nextReq := b.nextReq + 1 },
           [.accepted b.nextReq])

/-- Settle a lifecycle state on engine completion. -/
def settleState (s : Option LifecycleState) (ok : Bool) : Option LifecycleState :=
  s.map (fun st => engineTransition st ok)

/-- The instance holding request `r` as its outstanding operation, if any. -/
def findPending (l : List (Nat × VMInstance)) (r : Nat) : Option (Nat × VMInstance) :=
  l.find? (fun p => p.2.pendingReq == some r)

/-- Guarantee a non-empty error description, as the gateway contract
requires, even if the engine reported an empty message. -/
def nonEmptyMsg (msg : String) : String :=
  if msg = "" then "engine reported an unspecified failure" else msg

/-- Modelled from the spec: the engine settles the outstanding operation
with request id `r`. If the handle was destroyed mid-operation the single
completion callback fires now, reporting failure; otherwise the instance
transitions per the table and the completion callback fires with the
engine's outcome. A request id that is no longer known fires nothing. -/
def engine_complete (b : BridgeState) (r : Nat) (ok : Bool) (msg : String) :
    BridgeState × List Output :=
  if b.orphans.contains r then
    ({ b with orphans := b.orphans.erase r },
     [.completion r false (some destroyedMsg)])
  else
    match findPending b.instances r with
    | some p =>
      ({ b with instances := updateInstance b.instances p.1 ⟨settleState p.2.vm ok, none⟩ },
       [if ok then Output.completion r true none
        else Output.completion r false (some (nonEmptyMsg msg))])
    | none => (b, [])

/-- Modelled from the spec: `vm_bridge_vsock_connect` — rejected
synchronously with a state error unless the instance is `Running`; when
accepted, the connection attempt is recorded as outstanding. -/
def vm_bridge_vsock_connect (b : BridgeState) (h : Nat) (port : Nat) :
    BridgeState × List Output :=
  match lookupInstance b h with
  | none => (b, [.rejected unknownHandleMsg])
  | some i =>
    if i.vm == some LifecycleState.Running then
      ({ b with vsockPending := b.nextReq :: b.vsockPending, nextReq := b.nextReq + 1 },
       [.vsockAccepted b.nextReq])
    else
      (b, [.rejected notRunningMsg])

/-- Modelled from the spec: the transport settles an outstanding vsock
connection request; its callback fires exactly once, with the descriptor or
a failure. An unknown request id fires nothing. -/
def vsock_complete (b : BridgeState) (r : Nat) (fd : Int) (msg : Option String) :
    BridgeState × List Output :=
  if b.vsockPending.contains r then
    ({ b with vsockPending := b.vsockPending.erase r }, [.vsockCb r fd msg])
  else
    (b, [])

/-- Sentinel state code returned by `vm_bridge_get_state` for an unknown or
invalid handle, instead of erroring. -/
def STATE_UNKNOWN : Int := -1

/-- Numeric code of each lifecycle state at the C boundary. -/
def stateCode : LifecycleState → Int
  | .Created => 0
  | .Starting => 1
  | .Running => 2
  | .Stopping => 3
  | .Stopped => 4
  | .Error => 5

/-- Modelled from the spec: `vm_bridge_get_state` — total, never fails,
returns the sentinel for a handle that does not refer to a live VM. -/
def vm_bridge_get_state (b : BridgeState) (h : Nat) : Int :=
  match lookupInstance b h with
  | none => STATE_UNKNOWN
  | some i =>
    match i.vm with
    | none => STATE_UNKNOWN
    | some s => stateCode s

/-- Modelled from the spec: `vm_bridge_can_start` — a pure predicate
derived from the current state; false for any handle without a live VM. -/
def vm_bridge_can_start (b : BridgeState) (h : Nat) : Bool :=
  match lookupInstance b h with
  | none => false
  | some i =>
    match i.vm with
    | none => false
    | some s => canStartState s

/-- Modelled from the spec: `vm_bridge_can_stop`, symmetric. -/
def vm_bridge_can_stop (b : BridgeState) (h : Nat) : Bool :=
  match lookupInstance b h with
  | none => false
  | some i =>
    match i.vm with
    | none => false
    | some s => canStopState s

/-- Events driving the bridge: the boundary calls that change state, plus
the engine and transport completion signals. -/
inductive Event where
  | createHandle
  | destroyHandle (h : Nat)
  | createVm (h : Nat) (cfg : DeviceConfig)
  | startVm (h : Nat)
  | stopVm (h : Nat)
  | engineDone (r : Nat) (ok : Bool) (msg : String)
  | vsockConnect (h : Nat) (port : Nat)
  | vsockDone (r : Nat) (fd : Int) (msg : Option String)

/-- One step of the bridge: dispatch an event to the operation it drives. -/
def step (host : Host) (b : BridgeState) (e : Event) : BridgeState × List Output :=
  match e with
  | .createHandle => ((vm_bridge_create b).1, [])
  | .destroyHandle h => (vm_bridge_destroy b h, [])
  | .createVm h cfg =>
    let r := createVmCore host b h cfg
    (r.1, r.2.2)
  | .startVm h => vm_bridge_start_vm b h
  | .stopVm h => vm_bridge_stop_vm b h
  | .engineDone r ok msg => engine_complete b r ok msg
  | .vsockConnect h port => vm_bridge_vsock_connect b h port
  | .vsockDone r fd msg => vsock_complete b r fd msg

/-- Run a sequence of events from a given bridge state, collecting every
output in order. -/
def runFrom (host : Host) (b : BridgeState) : List Event → BridgeState × List Output
  | [] => (b, [])
  | e :: es =>
    let r := step host b e
    let r2 := runFrom host r.1 es
    (r2.1, r.2 ++ r2.2)

/-- Run a sequence of events from the empty bridge. -/
def run (host : Host) (es : List Event) : BridgeState × List Output :=
  runFrom host BridgeState.init es

/-- Output is a completion callback invocation for request `r`. -/
def isCompletionFor (r : Nat) : Output → Bool
  | .completion r2 _ _ => r2 == r
  | _ => false

/-- Output is the acceptance of start/stop request `r`. -/
def isAcceptedFor (r : Nat) : Output → Bool
  | .accepted r2 => r2 == r
  | _ => false

/-- Output is a vsock callback invocation for request `r`. -/
def isVsockCbFor (r : Nat) : Output → Bool
  | .vsockCb r2 _ _ => r2 == r
  | _ => false

/-- Output is the acceptance of vsock connection request `r`. -/
def isVsockAcceptedFor (r : Nat) : Output → Bool
  | .vsockAccepted r2 => r2 == r
  | _ => false

/-- Number of start/stop completion callbacks for request `r` in a run. -/
def completionsFor (outs : List Output) (r : Nat) : Nat :=
  outs.countP (isCompletionFor r)

/-- Number of acceptances of start/stop request `r` in a run. -/
def acceptedFor (outs : List Output) (r : Nat) : Nat :=
  outs.countP (isAcceptedFor r)

/-- Number of vsock callbacks for request `r` in a run. -/
def vsockCbFor (outs : List Output) (r : Nat) : Nat :=
  outs.countP (isVsockCbFor r)

/-- Number of acceptances of vsock request `r` in a run. -/
def vsockAcceptedFor (outs : List Output) (r : Nat) : Nat :=
  outs.countP (isVsockAcceptedFor r)

/-- Instance entries whose outstanding operation is request `r`. -/
def instPendCount (l : List (Nat × VMInstance)) (r : Nat) : Nat :=
  l.countP (fun p => p.2.pendingReq == some r)

/-- How many places still owe a completion callback for request `r`: an
instance holding it as its outstanding operation, or an orphan entry left
by a destroy. -/
def pendingCount (b : BridgeState) (r : Nat) : Nat :=
  instPendCount b.instances r + b.orphans.count r

/-- How many outstanding vsock requests carry id `r`. -/
def vsockCount (b : BridgeState) (r : Nat) : Nat :=
  b.vsockPending.count r

/-- The bridge is settled: no outstanding start/stop operation, no orphaned
operation, no outstanding vsock request. -/
def settled (b : BridgeState) : Bool :=
  b.instances.all (fun p => p.2.pendingReq == none)
    && b.orphans.isEmpty && b.vsockPending.isEmpty

/-- A completion output honours the callback contract: success carries no
error message, failure carries a non-empty one. -/
def completionWellFormed : Output → Bool
  | .completion _ true msg => msg == none
  | .completion _ false msg =>
    match msg with
    | some m => !(m == "")
    | none => false
  | _ => true

/-- Types appearing in the C declarations of VMBridge.h. -/
inductive CType where
  | void
  | bool
  | i32
  | u32
  | u64
  | charPtr
  | charPtrPtr
  | u64Ptr
  | boolPtr
  | vmBridgeHandle
  | vmCompletionCallback
  | networkInterfaceCallback
  | vsockConnectionCallback
deriving DecidableEq

/-- One C function declaration: name, parameter types in order, return
type. -/
structure CFunDecl where
  name : String
  params : List CType
  ret : CType

/-- Declaration of `vm_bridge_create` in VMBridge.h, line 23. -/
def vm_bridge_create_decl : CFunDecl :=
  ⟨"vm_bridge_create", [], .vmBridgeHandle⟩

/-- Declaration of `vm_bridge_destroy` in VMBridge.h, line 24. -/
def vm_bridge_destroy_decl : CFunDecl :=
  ⟨"vm_bridge_destroy", [.vmBridgeHandle], .void⟩

/-- Declaration of `vm_bridge_create_vm` in VMBridge.h, line 27. -/
def vm_bridge_create_vm_decl : CFunDecl :=
  ⟨"vm_bridge_create_vm", [.vmBridgeHandle, .charPtr, .charPtr, .u64, .u32], .bool⟩

/-- Declaration of `vm_bridge_create_vm_full` in VMBridge.h, lines 30-42. -/
def vm_bridge_create_vm_full_decl : CFunDecl :=
  ⟨"vm_bridge_create_vm_full",
   [.vmBridgeHandle, .charPtr, .charPtr, .u64, .u32,
    .charPtrPtr, .u64Ptr, .boolPtr, .u32, .charPtr, .charPtr],
   .bool⟩

/-- Declaration of `vm_bridge_start_vm` in VMBridge.h, line 44. -/
def vm_bridge_start_vm_decl : CFunDecl :=
  ⟨"vm_bridge_start_vm", [.vmBridgeHandle, .vmCompletionCallback], .void⟩

/-- Declaration of `vm_bridge_stop_vm` in VMBridge.h, line 45. -/
def vm_bridge_stop_vm_decl : CFunDecl :=
  ⟨"vm_bridge_stop_vm", [.vmBridgeHandle, .vmCompletionCallback], .void⟩

/-- Declaration of `vm_bridge_list_network_interfaces` in VMBridge.h,
line 49. -/
def vm_bridge_list_network_interfaces_decl : CFunDecl :=
  ⟨"vm_bridge_list_network_interfaces", [.networkInterfaceCallback], .void⟩

/-- Declaration of `vm_bridge_get_state` in VMBridge.h, line 52. -/
def vm_bridge_get_state_decl : CFunDecl :=
  ⟨"vm_bridge_get_state", [.vmBridgeHandle], .i32⟩

/-- Declaration of `vm_bridge_can_start` in VMBridge.h, line 53. -/
def vm_bridge_can_start_decl : CFunDecl :=
  ⟨"vm_bridge_can_start", [.vmBridgeHandle], .bool⟩

/-- Declaration of `vm_bridge_can_stop` in VMBridge.h, line 54. -/
def vm_bridge_can_stop_decl : CFunDecl :=
  ⟨"vm_bridge_can_stop", [.vmBridgeHandle], .bool⟩

/-- Declaration of `vm_bridge_vsock_connect` in VMBridge.h, line 59. -/
def vm_bridge_vsock_connect_decl : CFunDecl :=
  ⟨"vm_bridge_vsock_connect", [.vmBridgeHandle, .u32, .vsockConnectionCallback], .void⟩

/-- The declaration registers an asynchronous completion callback. -/
def takesCompletionCallback (f : CFunDecl) : Bool :=
  f.params.contains .vmCompletionCallback

/-- The lifecycle state of the VM behind a handle, when the handle is live
and its VM has been created. -/
def vmStateAt (b : BridgeState) (h : Nat) : Option LifecycleState :=
  match lookupInstance b h with
  | some i => i.vm
  | none => none

/-- Concrete host used to exercise the model on closed inputs. -/
def wHost : Host := ⟨["k", "i"], 1024, 8, ["en0"]⟩

/-- Concrete valid device configuration for the witness scenario. -/
def wCfg : DeviceConfig := ⟨"k", some "i", 512, 2, [], NetworkMode.offline, none⟩

/-- Witness scenario: a full successful lifecycle — create handle, create
VM, start, engine reports success, stop, engine reports success. -/
def wEvents : List Event :=
  [Event.createHandle, Event.createVm 0 wCfg, Event.startVm 0,
   Event.engineDone 0 true "", Event.stopVm 0, Event.engineDone 1 true ""]

/-- Witness state: one instance in the Created state. -/
def wCreatedState : BridgeState :=
  (run wHost [Event.createHandle, Event.createVm 0 wCfg]).1

/-- Witness state: a start operation outstanding on handle 0. -/
def wPendingState : BridgeState :=
  (run wHost [Event.createHandle, Event.createVm 0 wCfg, Event.startVm 0]).1

/-- Witness state: handle 0 destroyed while its start was outstanding. -/
def wOrphanState : BridgeState :=
  (run wHost [Event.createHandle, Event.createVm 0 wCfg, Event.startVm 0,
              Event.destroyHandle 0]).1

/-- Contribution of one instance to the pending count of request `r`. -/
def indPend (i : VMInstance) (r : Nat) : Nat :=
  if i.pendingReq = some r then 1 else 0

theorem lookup_eq_none_of_not_mem {l : List (Nat × VMInstance)} {h : Nat}
    (hm : h ∉ l.map Prod.fst) : l.lookup h = none := by
  induction l with
  | nil => rfl
  | cons p l ih =>
    obtain ⟨k, v⟩ := p
    simp only [List.map_cons, List.mem_cons, not_or] at hm
    have hk : (h == k) = false := by simp [hm.1]
    simp [List.lookup, hk, ih hm.2]

theorem lookup_some_mem {l : List (Nat × VMInstance)} {h : Nat} {i : VMInstance}
    (hl : l.lookup h = some i) : (h, i) ∈ l := by
  induction l with
  | nil => simp [List.lookup] at hl
  | cons p l ih =>
    obtain ⟨k, v⟩ := p
    by_cases hk : h = k
    · subst hk
      simp [List.lookup] at hl
      simp [hl]
    · have hkf : (h == k) = false := by simp [hk]
      simp [List.lookup, hkf] at hl
      exact List.mem_cons_of_mem _ (ih hl)

theorem lookup_of_mem_nodup {l : List (Nat × VMInstance)} {p : Nat × VMInstance}
    (hnd : (l.map Prod.fst).Nodup) (hp : p ∈ l) : l.lookup p.1 = some p.2 := by
  induction l with
  | nil => cases hp
  | cons q l ih =>
    simp only [List.map_cons, List.nodup_cons] at hnd
    rcases List.mem_cons.mp hp with he | hm
    · subst he
      obtain ⟨k, v⟩ := p
      simp [List.lookup]
    · have hne : (p.1 == q.1) = false := by
        have hmem : p.1 ∈ l.map Prod.fst := List.mem_map_of_mem Prod.fst hm
        have : p.1 ≠ q.1 := fun e => hnd.1 (e ▸ hmem)
        simp [this]
      obtain ⟨k, v⟩ := q
      simp only [List.lookup, hne]
      exact ih hnd.2 hm

theorem updateInstance_cons_self (h : Nat) (v j : VMInstance) (l : List (Nat × VMInstance)) :
    updateInstance ((h, v) :: l) h j = (h, j) :: updateInstance l h j := by
  simp [updateInstance]

theorem updateInstance_cons_ne {k h : Nat} (hk : k ≠ h) (v : VMInstance) (j : VMInstance)
    (l : List (Nat × VMInstance)) :
    updateInstance ((k, v) :: l) h j = (k, v) :: updateInstance l h j := by
  simp [updateInstance, hk]

theorem removeKey_cons_self (h : Nat) (v : VMInstance) (l : List (Nat × VMInstance)) :
    removeKey ((h, v) :: l) h = removeKey l h := by
  simp [removeKey, List.filter_cons]

theorem removeKey_cons_ne {k h : Nat} (hk : k ≠ h) (v : VMInstance)
    (l : List (Nat × VMInstance)) :
    removeKey ((k, v) :: l) h = (k, v) :: removeKey l h := by
  simp [removeKey, List.filter_cons, hk]

theorem updateInstance_of_not_mem {l : List (Nat × VMInstance)} {h : Nat} {j : VMInstance}
    (hm : h ∉ l.map Prod.fst) : updateInstance l h j = l := by
  induction l with
  | nil => rfl
  | cons p l ih =>
    obtain ⟨k, v⟩ := p
    simp only [List.map_cons, List.mem_cons, not_or] at hm
    have hne : k ≠ h := fun e => hm.1 e.symm
    rw [updateInstance_cons_ne hne, ih hm.2]

theorem removeKey_of_not_mem {l : List (Nat × VMInstance)} {h : Nat}
    (hm : h ∉ l.map Prod.fst) : removeKey l h = l := by
  induction l with
  | nil => rfl
  | cons p l ih =>
    obtain ⟨k, v⟩ := p
    simp only [List.map_cons, List.mem_cons, not_or] at hm
    have hne : k ≠ h := fun e => hm.1 e.symm
    rw [removeKey_cons_ne hne, ih hm.2]

theorem keys_updateInstance (l : List (Nat × VMInstance)) (h : Nat) (j : VMInstance) :
    (updateInstance l h j).map Prod.fst = l.map Prod.fst := by
  induction l with
  | nil => rfl
  | cons p l ih =>
    obtain ⟨k, v⟩ := p
    by_cases hk : k = h
    · subst hk
      rw [updateInstance_cons_self]
      simp [ih]
    · rw [updateInstance_cons_ne hk]
      simp [ih]

theorem lookup_updateInstance_self {l : List (Nat × VMInstance)} {h : Nat}
    {i : VMInstance} (j : VMInstance) (hl : l.lookup h = some i) :
    (updateInstance l h j).lookup h = some j := by
  induction l with
  | nil => simp [List.lookup] at hl
  | cons p l ih =>
    obtain ⟨k, v⟩ := p
    by_cases hk : k = h
    · subst hk
      rw [updateInstance_cons_self]
      simp [List.lookup]
    · have hne : h ≠ k := fun e => hk e.symm
      have hkf : (h == k) = false := by simp [hne]
      rw [updateInstance_cons_ne hk]
      simp only [List.lookup, hkf] at hl ⊢
      exact ih hl

theorem lookup_updateInstance_ne {l : List (Nat × VMInstance)} {g h : Nat}
    {j : VMInstance} (hgh : g ≠ h) :
    (updateInstance l h j).lookup g = l.lookup g := by
  induction l with
  | nil => rfl
  | cons p l ih =>
    obtain ⟨k, v⟩ := p
    by_cases hk : k = h
    · subst hk
      have hgk : (g == k) = false := by simp [hgh]
      rw [updateInstance_cons_self]
      simp only [List.lookup, hgk]
      exact ih
    · rw [updateInstance_cons_ne hk]
      simp only [List.lookup]
      cases hgk : (g == k) with
      | true => rfl
      | false => exact ih

theorem lookup_removeKey_self (l : List (Nat × VMInstance)) (h : Nat) :
    (removeKey l h).lookup h = none := by
  apply lookup_eq_none_of_not_mem
  intro hm
  obtain ⟨p, hp, he⟩ := List.mem_map.mp hm
  have hf := (List.mem_filter.mp hp).2
  simp [he] at hf

theorem lookup_removeKey_ne {l : List (Nat × VMInstance)} {g h : Nat} (hgh : g ≠ h) :
    (removeKey l h).lookup g = l.lookup g := by
  induction l with
  | nil => rfl
  | cons p l ih =>
    obtain ⟨k, v⟩ := p
    by_cases hk : k = h
    · subst hk
      have hgk : (g == k) = false := by simp [hgh]
      rw [removeKey_cons_self]
      rw [ih]
      simp only [List.lookup, hgk]
    · rw [removeKey_cons_ne hk]
      simp only [List.lookup]
      cases hgk : (g == k) with
      | true => rfl
      | false => exact ih

theorem instPendCount_cons (k : Nat) (v : VMInstance) (l : List (Nat × VMInstance)) (r : Nat) :
    instPendCount ((k, v) :: l) r = instPendCount l r + indPend v r := by
  simp only [instPendCount, List.countP_cons, indPend]
  by_cases hp : v.pendingReq = some r
  · simp [hp]
  · simp [hp]

theorem instPend_updateInstance {l : List (Nat × VMInstance)} {h : Nat} {i : VMInstance}
    (hnd : (l.map Prod.fst).Nodup) (hl : l.lookup h = some i) (j : VMInstance) (r : Nat) :
    instPendCount (updateInstance l h j) r + indPend i r
      = instPendCount l r + indPend j r := by
  induction l with
  | nil => simp [List.lookup] at hl
  | cons p l ih =>
    obtain ⟨k, v⟩ := p
    simp only [List.map_cons, List.nodup_cons] at hnd
    by_cases hk : k = h
    · subst hk
      have hv : v = i := by simpa [List.lookup] using hl
      subst hv
      rw [updateInstance_cons_self, updateInstance_of_not_mem hnd.1]
      rw [instPendCount_cons, instPendCount_cons]
      exact Nat.add_right_comm _ _ _
    · have hne : h ≠ k := fun e => hk e.symm
      have hkf : (h == k) = false := by simp [hne]
      rw [updateInstance_cons_ne hk]
      simp only [List.lookup, hkf] at hl
      have hih := ih hnd.2 hl
      rw [instPendCount_cons, instPendCount_cons, Nat.add_right_comm, hih,
          Nat.add_right_comm]

theorem instPend_removeKey {l : List (Nat × VMInstance)} {h : Nat} {i : VMInstance}
    (hnd : (l.map Prod.fst).Nodup) (hl : l.lookup h = some i) (r : Nat) :
    instPendCount (removeKey l h) r + indPend i r = instPendCount l r := by
  induction l with
  | nil => simp [List.lookup] at hl
  | cons p l ih =>
    obtain ⟨k, v⟩ := p
    simp only [List.map_cons, List.nodup_cons] at hnd
    by_cases hk : k = h
    · subst hk
      have hv : v = i := by simpa [List.lookup] using hl
      subst hv
      rw [removeKey_cons_self, removeKey_of_not_mem hnd.1, instPendCount_cons]
    · have hne : h ≠ k := fun e => hk e.symm
      have hkf : (h == k) = false := by simp [hne]
      rw [removeKey_cons_ne hk]
      simp only [List.lookup, hkf] at hl
      have hih := ih hnd.2 hl
      rw [instPendCount_cons, instPendCount_cons, Nat.add_right_comm, hih]

theorem findPending_some {l : List (Nat × VMInstance)} {r : Nat} {p : Nat × VMInstance}
    (hf : findPending l r = some p) : p ∈ l ∧ p.2.pendingReq = some r := by
  refine ⟨List.mem_of_find?_eq_some hf, ?_⟩
  simpa using List.find?_some hf

theorem countP_singleton (p : Output → Bool) (a : Output) :
    List.countP p [a] = if p a then 1 else 0 := by
  simp [List.countP_cons]

theorem handleBound_of_keys_eq {l l2 : List (Nat × VMInstance)} {n : Nat}
    (hk : l2.map Prod.fst = l.map Prod.fst) (hb : ∀ p ∈ l, p.1 < n) :
    ∀ p ∈ l2, p.1 < n := by
  intro p hp
  have hm : p.1 ∈ l2.map Prod.fst := List.mem_map_of_mem Prod.fst hp
  rw [hk] at hm
  obtain ⟨q, hq, he⟩ := List.mem_map.mp hm
  exact he ▸ hb q hq

/-- Invariant of reachable bridge states: handles are bounded by the
allocator and unique, and every outstanding request id (pending, orphaned
or vsock) was allocated by the request counter. -/
structure Inv (b : BridgeState) : Prop where
  handleBound : ∀ p ∈ b.instances, p.1 < b.nextHandle
  keysNodup : (b.instances.map Prod.fst).Nodup
  reqBound : ∀ r, pendingCount b r ≠ 0 → r < b.nextReq
  vsockBound : ∀ r, r ∈ b.vsockPending → r < b.nextReq

theorem Inv.init : Inv BridgeState.init := by
  refine ⟨?_, ?_, ?_, ?_⟩
  · intro p hp
    simp [BridgeState.init] at hp
  · simp [BridgeState.init]
  · intro r hr
    simp [BridgeState.init, pendingCount, instPendCount] at hr
  · intro r hr
    simp [BridgeState.init] at hr

/-- Bookkeeping relation between a bridge state, a successor state and the
outputs emitted on the way: callback counts balance against outstanding
work, and request ids are allocated freshly and at most once. -/
structure StepSpec (b b2 : BridgeState) (outs : List Output) : Prop where
  balance : ∀ r, completionsFor outs r + pendingCount b2 r
      = pendingCount b r + acceptedFor outs r
  vBalance : ∀ r, vsockCbFor outs r + vsockCount b2 r
      = vsockCount b r + vsockAcceptedFor outs r
  mono : b.nextReq ≤ b2.nextReq
  fresh : ∀ r, acceptedFor outs r + vsockAcceptedFor outs r ≠ 0 →
      b.nextReq ≤ r ∧ r < b2.nextReq
  once : ∀ r, acceptedFor outs r + vsockAcceptedFor outs r ≤ 1

theorem StepSpec.rfl (b : BridgeState) : StepSpec b b [] := by
  refine ⟨?_, ?_, le_refl _, ?_, ?_⟩ <;> intro r <;>
    simp [completionsFor, acceptedFor, vsockCbFor, vsockAcceptedFor]

theorem completionsFor_append (o1 o2 : List Output) (r : Nat) :
    completionsFor (o1 ++ o2) r = completionsFor o1 r + completionsFor o2 r :=
  List.countP_append _ _ _

theorem acceptedFor_append (o1 o2 : List Output) (r : Nat) :
    acceptedFor (o1 ++ o2) r = acceptedFor o1 r + acceptedFor o2 r :=
  List.countP_append _ _ _

theorem vsockCbFor_append (o1 o2 : List Output) (r : Nat) :
    vsockCbFor (o1 ++ o2) r = vsockCbFor o1 r + vsockCbFor o2 r :=
  List.countP_append _ _ _

theorem vsockAcceptedFor_append (o1 o2 : List Output) (r : Nat) :
    vsockAcceptedFor (o1 ++ o2) r = vsockAcceptedFor o1 r + vsockAcceptedFor o2 r :=
  List.countP_append _ _ _

theorem StepSpec.comp {b b1 b2 : BridgeState} {o1 o2 : List Output}
    (s1 : StepSpec b b1 o1) (s2 : StepSpec b1 b2 o2) :
    StepSpec b b2 (o1 ++ o2) := by
  refine ⟨?_, ?_, Nat.le_trans s1.mono s2.mono, ?_, ?_⟩
  · intro r
    rw [completionsFor_append, acceptedFor_append, Nat.add_assoc, s2.balance r,
        ← Nat.add_assoc, s1.balance r, Nat.add_assoc]
  · intro r
    rw [vsockCbFor_append, vsockAcceptedFor_append, Nat.add_assoc, s2.vBalance r,
        ← Nat.add_assoc, s1.vBalance r, Nat.add_assoc]
  · intro r hr
    rw [acceptedFor_append, vsockAcceptedFor_append] at hr
    by_cases h1 : acceptedFor o1 r + vsockAcceptedFor o1 r = 0
    · have ha1 : acceptedFor o1 r = 0 := Nat.eq_zero_of_add_eq_zero_right h1
      have hv1 : vsockAcceptedFor o1 r = 0 := Nat.eq_zero_of_add_eq_zero_left h1
      have h2 : acceptedFor o2 r + vsockAcceptedFor o2 r ≠ 0 := by
        intro hz
        apply hr
        rw [ha1, hv1, Nat.eq_zero_of_add_eq_zero_right hz,
            Nat.eq_zero_of_add_eq_zero_left hz]
      obtain ⟨ha, hb⟩ := s2.fresh r h2
      exact ⟨Nat.le_trans s1.mono ha, hb⟩
    · obtain ⟨ha, hb⟩ := s1.fresh r h1
      exact ⟨ha, Nat.lt_of_lt_of_le hb s2.mono⟩
  · intro r
    rw [acceptedFor_append, vsockAcceptedFor_append]
    by_cases hz1 : acceptedFor o1 r + vsockAcceptedFor o1 r = 0
    · rw [Nat.eq_zero_of_add_eq_zero_right hz1, Nat.eq_zero_of_add_eq_zero_left hz1,
          Nat.zero_add, Nat.zero_add]
      exact s2.once r
    · by_cases hz2 : acceptedFor o2 r + vsockAcceptedFor o2 r = 0
      · rw [Nat.eq_zero_of_add_eq_zero_right hz2, Nat.eq_zero_of_add_eq_zero_left hz2,
            Nat.add_zero, Nat.add_zero]
        exact s1.once r
      · obtain ⟨_, hb⟩ := s1.fresh r hz1
        obtain ⟨ha, _⟩ := s2.fresh r hz2
        exact absurd (Nat.lt_of_lt_of_le hb ha) (Nat.lt_irrefl r)

theorem pendingCount_mk (l : List (Nat × VMInstance)) (nh nr : Nat)
    (orph vp : List Nat) (r : Nat) :
    pendingCount ⟨l, nh, nr, orph, vp⟩ r = instPendCount l r + orph.count r := rfl

theorem completionsFor_nil (r : Nat) : completionsFor [] r = 0 := rfl

theorem acceptedFor_nil (r : Nat) : acceptedFor [] r = 0 := rfl

theorem vsockCbFor_nil (r : Nat) : vsockCbFor [] r = 0 := rfl

theorem vsockAcceptedFor_nil (r : Nat) : vsockAcceptedFor [] r = 0 := rfl

theorem counters_rejected (m : String) (r : Nat) :
    completionsFor [Output.rejected m] r = 0
    ∧ acceptedFor [Output.rejected m] r = 0
    ∧ vsockCbFor [Output.rejected m] r = 0
    ∧ vsockAcceptedFor [Output.rejected m] r = 0 :=
  ⟨rfl, rfl, rfl, rfl⟩

theorem counters_engineCreate (h : Nat) (r : Nat) :
    completionsFor [Output.engineCreate h] r = 0
    ∧ acceptedFor [Output.engineCreate h] r = 0
    ∧ vsockCbFor [Output.engineCreate h] r = 0
    ∧ vsockAcceptedFor [Output.engineCreate h] r = 0 :=
  ⟨rfl, rfl, rfl, rfl⟩

theorem acceptedFor_accepted (n r : Nat) :
    acceptedFor [Output.accepted n] r = if n = r then 1 else 0 := by
  by_cases hr : n = r <;>
    simp [acceptedFor, countP_singleton, isAcceptedFor, hr]

theorem counters_accepted (n r : Nat) :
    completionsFor [Output.accepted n] r = 0
    ∧ vsockCbFor [Output.accepted n] r = 0
    ∧ vsockAcceptedFor [Output.accepted n] r = 0 :=
  ⟨rfl, rfl, rfl⟩

theorem completionsFor_completion (r0 : Nat) (su : Bool) (m : Option String) (r : Nat) :
    completionsFor [Output.completion r0 su m] r = if r0 = r then 1 else 0 := by
  by_cases hr : r0 = r <;>
    simp [completionsFor, countP_singleton, isCompletionFor, hr]

theorem counters_completion (r0 : Nat) (su : Bool) (m : Option String) (r : Nat) :
    acceptedFor [Output.completion r0 su m] r = 0
    ∧ vsockCbFor [Output.completion r0 su m] r = 0
    ∧ vsockAcceptedFor [Output.completion r0 su m] r = 0 :=
  ⟨rfl, rfl, rfl⟩

theorem vsockAcceptedFor_vsockAccepted (n r : Nat) :
    vsockAcceptedFor [Output.vsockAccepted n] r = if n = r then 1 else 0 := by
  by_cases hr : n = r <;>
    simp [vsockAcceptedFor, countP_singleton, isVsockAcceptedFor, hr]

theorem counters_vsockAccepted (n r : Nat) :
    completionsFor [Output.vsockAccepted n] r = 0
    ∧ acceptedFor [Output.vsockAccepted n] r = 0
    ∧ vsockCbFor [Output.vsockAccepted n] r = 0 :=
  ⟨rfl, rfl, rfl⟩

theorem vsockCbFor_vsockCb (n : Nat) (fd : Int) (m : Option String) (r : Nat) :
    vsockCbFor [Output.vsockCb n fd m] r = if n = r then 1 else 0 := by
  by_cases hr : n = r <;>
    simp [vsockCbFor, countP_singleton, isVsockCbFor, hr]

theorem counters_vsockCb (n : Nat) (fd : Int) (m : Option String) (r : Nat) :
    completionsFor [Output.vsockCb n fd m] r = 0
    ∧ acceptedFor [Output.vsockCb n fd m] r = 0
    ∧ vsockAcceptedFor [Output.vsockCb n fd m] r = 0 :=
  ⟨rfl, rfl, rfl⟩

theorem stepSpec_unchangedCounts {b b2 : BridgeState} {outs : List Output}
    (hpc : ∀ r, pendingCount b2 r = pendingCount b r)
    (hvc : ∀ r, vsockCount b2 r = vsockCount b r)
    (hnr : b2.nextReq = b.nextReq)
    (hc : ∀ r, completionsFor outs r = 0)
    (ha : ∀ r, acceptedFor outs r = 0)
    (hv : ∀ r, vsockCbFor outs r = 0)
    (hva : ∀ r, vsockAcceptedFor outs r = 0) :
    StepSpec b b2 outs := by
  refine ⟨?_, ?_, Nat.le_of_eq hnr.symm, ?_, ?_⟩
  · intro r
    rw [hc r, ha r, hpc r, Nat.zero_add, Nat.add_zero]
  · intro r
    rw [hv r, hva r, hvc r, Nat.zero_add, Nat.add_zero]
  · intro r hr
    rw [ha r, hva r] at hr
    exact absurd rfl hr
  · intro r
    rw [ha r, hva r]
    exact Nat.zero_le 1

theorem spec_createHandle (host : Host) (b : BridgeState) (hI : Inv b) :
    StepSpec b (step host b .createHandle).1 (step host b .createHandle).2
      ∧ Inv (step host b .createHandle).1 := by
  simp only [step, vm_bridge_create]
  constructor
  · refine stepSpec_unchangedCounts ?_ (fun r => rfl) rfl completionsFor_nil
      acceptedFor_nil vsockCbFor_nil vsockAcceptedFor_nil
    intro r
    rw [pendingCount_mk, instPendCount_cons, show indPend ⟨none, none⟩ r = 0 from rfl]
    rfl
  · refine ⟨?_, ?_, ?_, ?_⟩
    · intro p hp
      rcases List.mem_cons.mp hp with he | hm
      · subst he
        exact Nat.lt_succ_self _
      · exact lt_trans (hI.handleBound p hm) (Nat.lt_succ_self _)
    · simp only [List.map_cons]
      refine List.nodup_cons.mpr ⟨?_, hI.keysNodup⟩
      intro hmem
      obtain ⟨q, hq, he⟩ := List.mem_map.mp hmem
      have hlt := hI.handleBound q hq
      exact absurd (he ▸ hlt) (Nat.lt_irrefl _)
    · intro r hr
      apply hI.reqBound r
      rw [pendingCount_mk, instPendCount_cons,
          show indPend ⟨none, none⟩ r = 0 from rfl] at hr
      exact hr
    · intro r hr
      exact hI.vsockBound r hr

theorem spec_destroyHandle (host : Host) (b : BridgeState) (h : Nat) (hI : Inv b) :
    StepSpec b (step host b (.destroyHandle h)).1 (step host b (.destroyHandle h)).2
      ∧ Inv (step host b (.destroyHandle h)).1 := by
  simp only [step]
  rcases hlk : lookupInstance b h with _ | i
  · simp only [vm_bridge_destroy, hlk]
    exact ⟨StepSpec.rfl b, hI⟩
  · have hlk2 : b.instances.lookup h = some i := hlk
    have hknd : ((removeKey b.instances h).map Prod.fst).Nodup :=
      List.Nodup.sublist (List.Sublist.map Prod.fst (List.filter_sublist b.instances))
        hI.keysNodup
    have hbnd : ∀ p ∈ removeKey b.instances h, p.1 < b.nextHandle := by
      intro p hp
      exact hI.handleBound p (List.mem_of_mem_filter hp)
    rcases hpr : i.pendingReq with _ | r0
    · simp only [vm_bridge_destroy, hlk, hpr]
      have hpc : ∀ r, pendingCount { b with instances := removeKey b.instances h } r
          = pendingCount b r := by
        intro r
        have hre := instPend_removeKey hI.keysNodup hlk2 r
        simp only [indPend, hpr] at hre
        rw [if_neg (fun he => Option.noConfusion he), Nat.add_zero] at hre
        simp only [pendingCount]
        rw [hre]
      constructor
      · exact stepSpec_unchangedCounts hpc (fun r => rfl) rfl completionsFor_nil
          acceptedFor_nil vsockCbFor_nil vsockAcceptedFor_nil
      · exact ⟨hbnd, hknd, fun r hr => hI.reqBound r (by rw [← hpc r]; exact hr),
          hI.vsockBound⟩
    · simp only [vm_bridge_destroy, hlk, hpr]
      have hpc : ∀ r,
          pendingCount { b with instances := removeKey b.instances h,
                                orphans := r0 :: b.orphans } r
            = pendingCount b r := by
        intro r
        have hre := instPend_removeKey hI.keysNodup hlk2 r
        simp only [indPend, hpr] at hre
        simp only [pendingCount, List.count_cons]
        by_cases hr0 : r0 = r
        · subst hr0
          rw [if_pos rfl] at hre
          rw [if_pos (beq_self_eq_true r0)]
          rw [← Nat.add_assoc, ← hre]
          exact Nat.add_right_comm _ _ _
        · rw [if_neg (fun he => hr0 (Option.some.inj he)), Nat.add_zero] at hre
          rw [if_neg (fun he => hr0 (eq_of_beq he)), Nat.add_zero, hre]
      constructor
      · exact stepSpec_unchangedCounts hpc (fun r => rfl) rfl completionsFor_nil
          acceptedFor_nil vsockCbFor_nil vsockAcceptedFor_nil
      · exact ⟨hbnd, hknd, fun r hr => hI.reqBound r (by rw [← hpc r]; exact hr),
          hI.vsockBound⟩

theorem spec_createVm (host : Host) (b : BridgeState) (h : Nat) (cfg : DeviceConfig)
    (hI : Inv b) :
    StepSpec b (step host b (.createVm h cfg)).1 (step host b (.createVm h cfg)).2
      ∧ Inv (step host b (.createVm h cfg)).1 := by
  simp only [step]
  rcases hlk : lookupInstance b h with _ | i
  · simp only [createVmCore, hlk]
    exact ⟨StepSpec.rfl b, hI⟩
  · rcases hvm : i.vm with _ | s
    · rcases hval : validate host cfg with e | c
      · simp only [createVmCore, hlk, hvm, hval]
        exact ⟨StepSpec.rfl b, hI⟩
      · simp only [createVmCore, hlk, hvm, hval]
        have hlk2 : b.instances.lookup h = some i := hlk
        have hpc : ∀ r, pendingCount { b with instances := updateInstance b.instances h ⟨some LifecycleState.Created, i.pendingReq⟩ } r = pendingCount b r := by
          intro r
          have hu := instPend_updateInstance hI.keysNodup hlk2
            ⟨some LifecycleState.Created, i.pendingReq⟩ r
          simp only [indPend] at hu
          simp only [pendingCount]
          rw [Nat.add_right_cancel hu]
        constructor
        · exact stepSpec_unchangedCounts hpc (fun r => rfl) rfl
            (fun r => (counters_engineCreate h r).1)
            (fun r => (counters_engineCreate h r).2.1)
            (fun r => (counters_engineCreate h r).2.2.1)
            (fun r => (counters_engineCreate h r).2.2.2)
        · refine ⟨handleBound_of_keys_eq (keys_updateInstance _ _ _) hI.handleBound,
            ?_, ?_, hI.vsockBound⟩
          · rw [keys_updateInstance]
            exact hI.keysNodup
          · intro r hr
            exact hI.reqBound r (by rw [← hpc r]; exact hr)
    · simp only [createVmCore, hlk, hvm]
      exact ⟨StepSpec.rfl b, hI⟩

theorem destroy_unknown {b : BridgeState} {h : Nat}
    (hlk : lookupInstance b h = none) : vm_bridge_destroy b h = b := by
  simp only [vm_bridge_destroy, hlk]

theorem destroy_idle {b : BridgeState} {h : Nat} {i : VMInstance}
    (hlk : lookupInstance b h = some i) (hpr : i.pendingReq = none) :
    vm_bridge_destroy b h = { b with instances := removeKey b.instances h } := by
  simp only [vm_bridge_destroy, hlk, hpr]

theorem destroy_pending {b : BridgeState} {h : Nat} {i : VMInstance} {r0 : Nat}
    (hlk : lookupInstance b h = some i) (hpr : i.pendingReq = some r0) :
    vm_bridge_destroy b h
      = { b with instances := removeKey b.instances h, orphans := r0 :: b.orphans } := by
  simp only [vm_bridge_destroy, hlk, hpr]

theorem createVmCore_unknown {host : Host} {b : BridgeState} {h : Nat} {cfg : DeviceConfig}
    (hlk : lookupInstance b h = none) : createVmCore host b h cfg = (b, false, []) := by
  simp only [createVmCore, hlk]

theorem createVmCore_live {host : Host} {b : BridgeState} {h : Nat} {cfg : DeviceConfig}
    {i : VMInstance} {s : LifecycleState}
    (hlk : lookupInstance b h = some i) (hvm : i.vm = some s) :
    createVmCore host b h cfg = (b, false, []) := by
  simp only [createVmCore, hlk, hvm]

theorem createVmCore_invalid {host : Host} {b : BridgeState} {h : Nat} {cfg : DeviceConfig}
    {i : VMInstance} {e : ConfigError}
    (hlk : lookupInstance b h = some i) (hvm : i.vm = none)
    (hval : validate host cfg = Except.error e) :
    createVmCore host b h cfg = (b, false, []) := by
  simp only [createVmCore, hlk, hvm, hval]

theorem createVmCore_ok {host : Host} {b : BridgeState} {h : Nat} {cfg : DeviceConfig}
    {i : VMInstance} {c : DeviceConfig}
    (hlk : lookupInstance b h = some i) (hvm : i.vm = none)
    (hval : validate host cfg = Except.ok c) :
    createVmCore host b h cfg
      = ({ b with instances :=
            updateInstance b.instances h ⟨some LifecycleState.Created, i.pendingReq⟩ },
         true, [Output.engineCreate h]) := by
  simp only [createVmCore, hlk, hvm, hval]

theorem start_vm_unknown {b : BridgeState} {h : Nat}
    (hlk : lookupInstance b h = none) :
    vm_bridge_start_vm b h = (b, [Output.rejected unknownHandleMsg]) := by
  simp only [vm_bridge_start_vm, hlk]

theorem start_vm_busy {b : BridgeState} {h : Nat} {i : VMInstance} {r0 : Nat}
    (hlk : lookupInstance b h = some i) (hpr : i.pendingReq = some r0) :
    vm_bridge_start_vm b h = (b, [Output.rejected busyMsg]) := by
  simp only [vm_bridge_start_vm, hlk, hpr]

theorem start_vm_noVm {b : BridgeState} {h : Nat} {i : VMInstance}
    (hlk : lookupInstance b h = some i) (hpr : i.pendingReq = none)
    (hvm : i.vm = none) :
    vm_bridge_start_vm b h = (b, [Output.rejected noVmMsg]) := by
  simp only [vm_bridge_start_vm, hlk, hpr, hvm]

theorem start_vm_guard {b : BridgeState} {h : Nat} {i : VMInstance} {s : LifecycleState}
    (hlk : lookupInstance b h = some i) (hpr : i.pendingReq = none)
    (hvm : i.vm = some s) (hst : startTransition s = none) :
    vm_bridge_start_vm b h = (b, [Output.rejected stateErrorMsg]) := by
  simp only [vm_bridge_start_vm, hlk, hpr, hvm, hst]

theorem start_vm_accept {b : BridgeState} {h : Nat} {i : VMInstance}
    {s s2 : LifecycleState}
    (hlk : lookupInstance b h = some i) (hpr : i.pendingReq = none)
    (hvm : i.vm = some s) (hst : startTransition s = some s2) :
    vm_bridge_start_vm b h
      = ({ b with instances := updateInstance b.instances h ⟨some s2, some b.nextReq⟩, nextReq := b.nextReq + 1 },
         [Output.accepted b.nextReq]) := by
  simp only [vm_bridge_start_vm, hlk, hpr, hvm, hst]

theorem stop_vm_unknown {b : BridgeState} {h : Nat}
    (hlk : lookupInstance b h = none) :
    vm_bridge_stop_vm b h = (b, [Output.rejected unknownHandleMsg]) := by
  simp only [vm_bridge_stop_vm, hlk]

theorem stop_vm_busy {b : BridgeState} {h : Nat} {i : VMInstance} {r0 : Nat}
    (hlk : lookupInstance b h = some i) (hpr : i.pendingReq = some r0) :
    vm_bridge_stop_vm b h = (b, [Output.rejected busyMsg]) := by
  simp only [vm_bridge_stop_vm, hlk, hpr]

theorem stop_vm_noVm {b : BridgeState} {h : Nat} {i : VMInstance}
    (hlk : lookupInstance b h = some i) (hpr : i.pendingReq = none)
    (hvm : i.vm = none) :
    vm_bridge_stop_vm b h = (b, [Output.rejected noVmMsg]) := by
  simp only [vm_bridge_stop_vm, hlk, hpr, hvm]

theorem stop_vm_guard {b : BridgeState} {h : Nat} {i : VMInstance} {s : LifecycleState}
    (hlk : lookupInstance b h = some i) (hpr : i.pendingReq = none)
    (hvm : i.vm = some s) (hst : stopTransition s = none) :
    vm_bridge_stop_vm b h = (b, [Output.rejected stateErrorMsg]) := by
  simp only [vm_bridge_stop_vm, hlk, hpr, hvm, hst]

theorem stop_vm_accept {b : BridgeState} {h : Nat} {i : VMInstance}
    {s s2 : LifecycleState}
    (hlk : lookupInstance b h = some i) (hpr : i.pendingReq = none)
    (hvm : i.vm = some s) (hst : stopTransition s = some s2) :
    vm_bridge_stop_vm b h
      = ({ b with instances := updateInstance b.instances h ⟨some s2, some b.nextReq⟩, nextReq := b.nextReq + 1 },
         [Output.accepted b.nextReq]) := by
  simp only [vm_bridge_stop_vm, hlk, hpr, hvm, hst]

theorem vsock_connect_unknown {b : BridgeState} {h : Nat} {port : Nat}
    (hlk : lookupInstance b h = none) :
    vm_bridge_vsock_connect b h port = (b, [Output.rejected unknownHandleMsg]) := by
  simp only [vm_bridge_vsock_connect, hlk]

theorem vsock_connect_accept {b : BridgeState} {h : Nat} {port : Nat} {i : VMInstance}
    (hlk : lookupInstance b h = some i) (hrun : i.vm = some LifecycleState.Running) :
    vm_bridge_vsock_connect b h port
      = ({ b with vsockPending := b.nextReq :: b.vsockPending, nextReq := b.nextReq + 1 },
         [Output.vsockAccepted b.nextReq]) := by
  simp only [vm_bridge_vsock_connect, hlk]
  rw [if_pos (by rw [hrun]; rfl)]

theorem vsock_connect_notRunning {b : BridgeState} {h : Nat} {port : Nat} {i : VMInstance}
    (hlk : lookupInstance b h = some i) (hrun : i.vm ≠ some LifecycleState.Running) :
    vm_bridge_vsock_connect b h port = (b, [Output.rejected notRunningMsg]) := by
  simp only [vm_bridge_vsock_connect, hlk]
  rw [if_neg (fun he => hrun (eq_of_beq he))]

theorem pendingCount_instances_update (b : BridgeState) (l : List (Nat × VMInstance))
    (n : Nat) (r : Nat) :
    pendingCount { b with instances := l, nextReq := n } r
      = instPendCount l r + b.orphans.count r := rfl

theorem vsockCount_instances_update (b : BridgeState) (l : List (Nat × VMInstance))
    (n : Nat) (r : Nat) :
    vsockCount { b with instances := l, nextReq := n } r = vsockCount b r := rfl

theorem pendingCount_def (b : BridgeState) (r : Nat) :
    pendingCount b r = instPendCount b.instances r + b.orphans.count r := rfl

theorem vsockCount_def (b : BridgeState) (r : Nat) :
    vsockCount b r = b.vsockPending.count r := rfl

theorem stepSpec_reject (b : BridgeState) (m : String) : StepSpec b b [.rejected m] :=
  stepSpec_unchangedCounts (fun r => rfl) (fun r => rfl) rfl
    (fun r => (counters_rejected m r).1) (fun r => (counters_rejected m r).2.1)
    (fun r => (counters_rejected m r).2.2.1) (fun r => (counters_rejected m r).2.2.2)

theorem spec_accept (b : BridgeState) (h : Nat) (i : VMInstance) (s2 : LifecycleState)
    (hI : Inv b) (hlk : b.instances.lookup h = some i) (hpr : i.pendingReq = none) :
    StepSpec b { b with instances := updateInstance b.instances h ⟨some s2, some b.nextReq⟩, nextReq := b.nextReq + 1 } [Output.accepted b.nextReq]
      ∧ Inv { b with instances := updateInstance b.instances h ⟨some s2, some b.nextReq⟩, nextReq := b.nextReq + 1 } := by
  have hupd : ∀ r, instPendCount (updateInstance b.instances h ⟨some s2, some b.nextReq⟩) r
      = instPendCount b.instances r + (if b.nextReq = r then 1 else 0) := by
    intro r
    have hu := instPend_updateInstance hI.keysNodup hlk ⟨some s2, some b.nextReq⟩ r
    simp only [indPend, hpr] at hu
    rw [if_neg (fun he => Option.noConfusion he)] at hu
    by_cases hr : b.nextReq = r
    · rw [if_pos hr]
      rw [if_pos (by rw [hr]), Nat.add_zero] at hu
      exact hu
    · rw [if_neg hr]
      rw [if_neg (fun he => hr (Option.some.inj he)), Nat.add_zero] at hu
      exact hu
  constructor
  · refine ⟨?_, ?_, Nat.le_succ _, ?_, ?_⟩
    · intro r
      rw [(counters_accepted b.nextReq r).1, acceptedFor_accepted,
          pendingCount_instances_update, hupd r, pendingCount_def b r]
      by_cases hr : b.nextReq = r
      · simp only [if_pos hr]
        rw [Nat.zero_add]
        exact Nat.add_right_comm _ _ _
      · simp only [if_neg hr]
        rw [Nat.zero_add, Nat.add_zero, Nat.add_zero]
    · intro r
      rw [(counters_accepted b.nextReq r).2.1, (counters_accepted b.nextReq r).2.2,
          vsockCount_instances_update, Nat.zero_add, Nat.add_zero]
    · intro r hr
      rw [acceptedFor_accepted, (counters_accepted b.nextReq r).2.2] at hr
      by_cases he : b.nextReq = r
      · cases he
        exact ⟨Nat.le_refl _, Nat.lt_succ_self _⟩
      · rw [if_neg he] at hr
        exact absurd rfl hr
    · intro r
      rw [acceptedFor_accepted, (counters_accepted b.nextReq r).2.2]
      by_cases he : b.nextReq = r
      · rw [if_pos he]
      · rw [if_neg he]
        exact Nat.zero_le 1
  · refine ⟨handleBound_of_keys_eq (keys_updateInstance _ _ _) hI.handleBound, ?_, ?_, ?_⟩
    · rw [keys_updateInstance]
      exact hI.keysNodup
    · intro r hr
      rw [pendingCount_instances_update, hupd r] at hr
      show r < b.nextReq + 1
      by_cases he : b.nextReq = r
      · cases he
        exact Nat.lt_succ_self _
      · rw [if_neg he, Nat.add_zero] at hr
        have hb := hI.reqBound r (by rw [pendingCount_def]; exact hr)
        exact Nat.lt_succ_of_lt hb
    · intro r hr
      exact Nat.lt_succ_of_lt (hI.vsockBound r hr)

theorem spec_startVm (host : Host) (b : BridgeState) (h : Nat) (hI : Inv b) :
    StepSpec b (step host b (.startVm h)).1 (step host b (.startVm h)).2
      ∧ Inv (step host b (.startVm h)).1 := by
  simp only [step]
  rcases hlk : lookupInstance b h with _ | i
  · rw [start_vm_unknown hlk]
    exact ⟨stepSpec_reject b unknownHandleMsg, hI⟩
  · rcases hpr : i.pendingReq with _ | r0
    · rcases hvm : i.vm with _ | s
      · rw [start_vm_noVm hlk hpr hvm]
        exact ⟨stepSpec_reject b noVmMsg, hI⟩
      · rcases hst : startTransition s with _ | s2
        · rw [start_vm_guard hlk hpr hvm hst]
          exact ⟨stepSpec_reject b stateErrorMsg, hI⟩
        · rw [start_vm_accept hlk hpr hvm hst]
          exact spec_accept b h i s2 hI hlk hpr
    · rw [start_vm_busy hlk hpr]
      exact ⟨stepSpec_reject b busyMsg, hI⟩

theorem spec_stopVm (host : Host) (b : BridgeState) (h : Nat) (hI : Inv b) :
    StepSpec b (step host b (.stopVm h)).1 (step host b (.stopVm h)).2
      ∧ Inv (step host b (.stopVm h)).1 := by
  simp only [step]
  rcases hlk : lookupInstance b h with _ | i
  · rw [stop_vm_unknown hlk]
    exact ⟨stepSpec_reject b unknownHandleMsg, hI⟩
  · rcases hpr : i.pendingReq with _ | r0
    · rcases hvm : i.vm with _ | s
      · rw [stop_vm_noVm hlk hpr hvm]
        exact ⟨stepSpec_reject b noVmMsg, hI⟩
      · rcases hst : stopTransition s with _ | s2
        · rw [stop_vm_guard hlk hpr hvm hst]
          exact ⟨stepSpec_reject b stateErrorMsg, hI⟩
        · rw [stop_vm_accept hlk hpr hvm hst]
          exact spec_accept b h i s2 hI hlk hpr
    · rw [stop_vm_busy hlk hpr]
      exact ⟨stepSpec_reject b busyMsg, hI⟩

theorem engine_complete_orphan {b : BridgeState} {r0 : Nat}
    (h : r0 ∈ b.orphans) (ok : Bool) (msg : String) :
    engine_complete b r0 ok msg
      = ({ b with orphans := b.orphans.erase r0 },
         [Output.completion r0 false (some destroyedMsg)]) := by
  simp [engine_complete, h]

theorem engine_complete_pending {b : BridgeState} {r0 : Nat} {p : Nat × VMInstance}
    (h : r0 ∉ b.orphans) (hf : findPending b.instances r0 = some p)
    (ok : Bool) (msg : String) :
    engine_complete b r0 ok msg
      = ({ b with instances := updateInstance b.instances p.1 ⟨settleState p.2.vm ok, none⟩ },
         [if ok then Output.completion r0 true none
          else Output.completion r0 false (some (nonEmptyMsg msg))]) := by
  simp [engine_complete, h, hf]

theorem engine_complete_unknown {b : BridgeState} {r0 : Nat}
    (h : r0 ∉ b.orphans) (hf : findPending b.instances r0 = none)
    (ok : Bool) (msg : String) :
    engine_complete b r0 ok msg = (b, []) := by
  simp [engine_complete, h, hf]

theorem vsock_complete_pending {b : BridgeState} {r0 : Nat}
    (h : r0 ∈ b.vsockPending) (fd : Int) (msg : Option String) :
    vsock_complete b r0 fd msg
      = ({ b with vsockPending := b.vsockPending.erase r0 }, [Output.vsockCb r0 fd msg]) := by
  simp [vsock_complete, h]

theorem vsock_complete_unknown {b : BridgeState} {r0 : Nat}
    (h : r0 ∉ b.vsockPending) (fd : Int) (msg : Option String) :
    vsock_complete b r0 fd msg = (b, []) := by
  simp [vsock_complete, h]

theorem spec_settleOut (b : BridgeState) (p : Nat × VMInstance) (r0 : Nat) (o : Output)
    (j : VMInstance) (hI : Inv b) (hlkp : b.instances.lookup p.1 = some p.2)
    (hpend : p.2.pendingReq = some r0) (hj : j.pendingReq = none)
    (hco : ∀ r, completionsFor [o] r = if r0 = r then 1 else 0)
    (hao : ∀ r, acceptedFor [o] r = 0)
    (hvo : ∀ r, vsockCbFor [o] r = 0)
    (hvao : ∀ r, vsockAcceptedFor [o] r = 0) :
    StepSpec b { b with instances := updateInstance b.instances p.1 j } [o]
      ∧ Inv { b with instances := updateInstance b.instances p.1 j } := by
  have hupd : ∀ r, instPendCount (updateInstance b.instances p.1 j) r
      + (if r0 = r then 1 else 0) = instPendCount b.instances r := by
    intro r
    have hu := instPend_updateInstance hI.keysNodup hlkp j r
    simp only [indPend, hpend, hj] at hu
    by_cases hr : r0 = r
    · rw [if_pos hr]
      rw [if_pos (by rw [hr]), if_neg (fun he => Option.noConfusion he),
          Nat.add_zero] at hu
      exact hu
    · rw [if_neg hr]
      rw [if_neg (fun he => hr (Option.some.inj he)),
          if_neg (fun he => Option.noConfusion he), Nat.add_zero, Nat.add_zero] at hu
      rw [Nat.add_zero]
      exact hu
  constructor
  · refine ⟨?_, ?_, le_refl _, ?_, ?_⟩
    · intro r
      rw [hco r, hao r, pendingCount_def b r,
          show pendingCount { b with instances := updateInstance b.instances p.1 j } r
            = instPendCount (updateInstance b.instances p.1 j) r + b.orphans.count r
            from rfl]
      have hu := hupd r
      by_cases hr : r0 = r
      · rw [if_pos hr] at hu ⊢
        rw [Nat.add_zero, ← hu, ← Nat.add_assoc, Nat.add_comm 1 _]
      · rw [if_neg hr] at hu ⊢
        rw [Nat.add_zero] at hu
        rw [Nat.zero_add, Nat.add_zero, hu]
    · intro r
      rw [hvo r, hvao r]
      show 0 + vsockCount b r = vsockCount b r + 0
      rw [Nat.zero_add, Nat.add_zero]
    · intro r hr
      rw [hao r, hvao r] at hr
      exact absurd rfl hr
    · intro r
      rw [hao r, hvao r]
      exact Nat.zero_le 1
  · refine ⟨handleBound_of_keys_eq (keys_updateInstance _ _ _) hI.handleBound, ?_, ?_,
      hI.vsockBound⟩
    · rw [keys_updateInstance]
      exact hI.keysNodup
    · intro r hr
      apply hI.reqBound r
      rw [pendingCount_def b r]
      rw [show pendingCount { b with instances := updateInstance b.instances p.1 j } r
            = instPendCount (updateInstance b.instances p.1 j) r + b.orphans.count r
            from rfl] at hr
      have hu := hupd r
      by_cases he : r0 = r
      · rw [if_pos he] at hu
        intro hz
        have hb0 : instPendCount b.instances r = 0 := Nat.eq_zero_of_add_eq_zero_right hz
        rw [← hu] at hb0
        exact Nat.succ_ne_zero _ hb0
      · rw [if_neg he, Nat.add_zero] at hu
        rw [hu] at hr
        exact hr

theorem spec_engineDone (host : Host) (b : BridgeState) (r0 : Nat) (ok : Bool) (msg : String)
    (hI : Inv b) :
    StepSpec b (step host b (.engineDone r0 ok msg)).1 (step host b (.engineDone r0 ok msg)).2
      ∧ Inv (step host b (.engineDone r0 ok msg)).1 := by
  simp only [step]
  by_cases hmem : r0 ∈ b.orphans
  · have hcnt : 0 < b.orphans.count r0 := List.count_pos_iff.mpr hmem
    rw [engine_complete_orphan hmem ok msg]
    constructor
    · refine ⟨?_, ?_, le_refl _, ?_, ?_⟩
      · intro r
        rw [completionsFor_completion, (counters_completion r0 false (some destroyedMsg) r).1,
            pendingCount_def b r,
            show pendingCount { b with orphans := b.orphans.erase r0 } r
              = instPendCount b.instances r + (b.orphans.erase r0).count r from rfl]
        by_cases hr : r0 = r
        · subst hr
          rw [if_pos rfl, List.count_erase_self, Nat.add_zero, Nat.add_comm 1 _,
              Nat.add_assoc, Nat.sub_add_cancel hcnt]
        · have hne : r ≠ r0 := fun e => hr e.symm
          rw [if_neg hr, List.count_erase_of_ne hne, Nat.zero_add, Nat.add_zero]
      · intro r
        rw [(counters_completion r0 false (some destroyedMsg) r).2.1,
            (counters_completion r0 false (some destroyedMsg) r).2.2]
        show 0 + vsockCount b r = vsockCount b r + 0
        rw [Nat.zero_add, Nat.add_zero]
      · intro r hr
        rw [(counters_completion r0 false (some destroyedMsg) r).1,
            (counters_completion r0 false (some destroyedMsg) r).2.2] at hr
        exact absurd rfl hr
      · intro r
        rw [(counters_completion r0 false (some destroyedMsg) r).1,
            (counters_completion r0 false (some destroyedMsg) r).2.2]
        exact Nat.zero_le 1
    · refine ⟨hI.handleBound, hI.keysNodup, ?_, hI.vsockBound⟩
      intro r hr
      apply hI.reqBound r
      rw [pendingCount_def b r]
      rw [show pendingCount { b with orphans := b.orphans.erase r0 } r
            = instPendCount b.instances r + (b.orphans.erase r0).count r from rfl] at hr
      by_cases he : r = r0
      · subst he
        exact fun hz => Nat.ne_of_gt hcnt (Nat.eq_zero_of_add_eq_zero_left hz)
      · rw [List.count_erase_of_ne he] at hr
        exact hr
  · rcases hfp : findPending b.instances r0 with _ | p
    · rw [engine_complete_unknown hmem hfp ok msg]
      exact ⟨StepSpec.rfl b, hI⟩
    · obtain ⟨hpmem, hpend⟩ := findPending_some hfp
      have hlkp := lookup_of_mem_nodup hI.keysNodup hpmem
      rw [engine_complete_pending hmem hfp ok msg]
      refine spec_settleOut b p r0 _ _ hI hlkp hpend rfl ?_ ?_ ?_ ?_
      · intro r
        cases ok
        · rw [if_neg (fun he => Bool.noConfusion he)]
          exact completionsFor_completion r0 false (some (nonEmptyMsg msg)) r
        · rw [if_pos rfl]
          exact completionsFor_completion r0 true none r
      · intro r
        cases ok
        · rw [if_neg (fun he => Bool.noConfusion he)]
          exact (counters_completion r0 false (some (nonEmptyMsg msg)) r).1
        · rw [if_pos rfl]
          exact (counters_completion r0 true none r).1
      · intro r
        cases ok
        · rw [if_neg (fun he => Bool.noConfusion he)]
          exact (counters_completion r0 false (some (nonEmptyMsg msg)) r).2.1
        · rw [if_pos rfl]
          exact (counters_completion r0 true none r).2.1
      · intro r
        cases ok
        · rw [if_neg (fun he => Bool.noConfusion he)]
          exact (counters_completion r0 false (some (nonEmptyMsg msg)) r).2.2
        · rw [if_pos rfl]
          exact (counters_completion r0 true none r).2.2

theorem spec_vsockConnect (host : Host) (b : BridgeState) (h : Nat) (port : Nat)
    (hI : Inv b) :
    StepSpec b (step host b (.vsockConnect h port)).1 (step host b (.vsockConnect h port)).2
      ∧ Inv (step host b (.vsockConnect h port)).1 := by
  simp only [step]
  rcases hlk : lookupInstance b h with _ | i
  · rw [vsock_connect_unknown hlk]
    exact ⟨stepSpec_reject b unknownHandleMsg, hI⟩
  · by_cases hrun : i.vm = some LifecycleState.Running
    · rw [vsock_connect_accept hlk hrun]
      constructor
      · refine ⟨?_, ?_, Nat.le_succ _, ?_, ?_⟩
        · intro r
          rw [(counters_vsockAccepted b.nextReq r).1, (counters_vsockAccepted b.nextReq r).2.1]
          show 0 + pendingCount b r = pendingCount b r + 0
          rw [Nat.zero_add, Nat.add_zero]
        · intro r
          rw [(counters_vsockAccepted b.nextReq r).2.2, vsockAcceptedFor_vsockAccepted]
          rw [show vsockCount { b with vsockPending := b.nextReq :: b.vsockPending, nextReq := b.nextReq + 1 } r = (b.nextReq :: b.vsockPending).count r from rfl]
          rw [List.count_cons, vsockCount_def b r]
          by_cases hr : b.nextReq = r
          · rw [if_pos hr, if_pos (by rw [hr]; exact beq_self_eq_true r), Nat.zero_add]
          · rw [if_neg hr, if_neg (fun he => hr (eq_of_beq he)), Nat.zero_add]
        · intro r hr
          rw [(counters_vsockAccepted b.nextReq r).2.1, vsockAcceptedFor_vsockAccepted] at hr
          by_cases he : b.nextReq = r
          · cases he
            exact ⟨Nat.le_refl _, Nat.lt_succ_self _⟩
          · rw [if_neg he] at hr
            exact absurd rfl hr
        · intro r
          rw [(counters_vsockAccepted b.nextReq r).2.1, vsockAcceptedFor_vsockAccepted]
          by_cases he : b.nextReq = r
          · rw [if_pos he]
          · rw [if_neg he]
            exact Nat.zero_le 1
      · refine ⟨hI.handleBound, hI.keysNodup, ?_, ?_⟩
        · intro r hr
          show r < b.nextReq + 1
          have hpb : pendingCount b r ≠ 0 := hr
          exact Nat.lt_succ_of_lt (hI.reqBound r hpb)
        · intro r hr
          show r < b.nextReq + 1
          rcases List.mem_cons.mp hr with he | hm
          · cases he
            exact Nat.lt_succ_self _
          · exact Nat.lt_succ_of_lt (hI.vsockBound r hm)
    · rw [vsock_connect_notRunning hlk hrun]
      exact ⟨stepSpec_reject b notRunningMsg, hI⟩

theorem spec_vsockDone (host : Host) (b : BridgeState) (r0 : Nat) (fd : Int)
    (msg : Option String) (hI : Inv b) :
    StepSpec b (step host b (.vsockDone r0 fd msg)).1 (step host b (.vsockDone r0 fd msg)).2
      ∧ Inv (step host b (.vsockDone r0 fd msg)).1 := by
  simp only [step]
  by_cases hmem : r0 ∈ b.vsockPending
  · have hcnt : 0 < b.vsockPending.count r0 := List.count_pos_iff.mpr hmem
    rw [vsock_complete_pending hmem fd msg]
    constructor
    · refine ⟨?_, ?_, le_refl _, ?_, ?_⟩
      · intro r
        rw [(counters_vsockCb r0 fd msg r).1, (counters_vsockCb r0 fd msg r).2.1]
        show 0 + pendingCount b r = pendingCount b r + 0
        rw [Nat.zero_add, Nat.add_zero]
      · intro r
        rw [vsockCbFor_vsockCb, (counters_vsockCb r0 fd msg r).2.2]
        rw [show vsockCount { b with vsockPending := b.vsockPending.erase r0 } r = (b.vsockPending.erase r0).count r from rfl]
        rw [vsockCount_def b r]
        by_cases hr : r0 = r
        · subst hr
          rw [if_pos rfl, List.count_erase_self, Nat.add_zero, Nat.add_comm 1 _,
              Nat.sub_add_cancel hcnt]
        · have hne : r ≠ r0 := fun e => hr e.symm
          rw [if_neg hr, List.count_erase_of_ne hne, Nat.zero_add, Nat.add_zero]
      · intro r hr
        rw [(counters_vsockCb r0 fd msg r).2.1, (counters_vsockCb r0 fd msg r).2.2] at hr
        exact absurd rfl hr
      · intro r
        rw [(counters_vsockCb r0 fd msg r).2.1, (counters_vsockCb r0 fd msg r).2.2]
        exact Nat.zero_le 1
    · refine ⟨hI.handleBound, hI.keysNodup, ?_, ?_⟩
      · intro r hr
        exact hI.reqBound r hr
      · intro r hr
        exact hI.vsockBound r (List.mem_of_mem_erase hr)
  · rw [vsock_complete_unknown hmem fd msg]
    exact ⟨StepSpec.rfl b, hI⟩

theorem step_spec (host : Host) (b : BridgeState) (e : Event) (hI : Inv b) :
    StepSpec b (step host b e).1 (step host b e).2 ∧ Inv (step host b e).1 := by
  cases e with
  | createHandle => exact spec_createHandle host b hI
  | destroyHandle h => exact spec_destroyHandle host b h hI
  | createVm h cfg => exact spec_createVm host b h cfg hI
  | startVm h => exact spec_startVm host b h hI
  | stopVm h => exact spec_stopVm host b h hI
  | engineDone r ok msg => exact spec_engineDone host b r ok msg hI
  | vsockConnect h port => exact spec_vsockConnect host b h port hI
  | vsockDone r fd msg => exact spec_vsockDone host b r fd msg hI

theorem runFrom_spec (host : Host) : ∀ (es : List Event) (b : BridgeState), Inv b →
    StepSpec b (runFrom host b es).1 (runFrom host b es).2 ∧ Inv (runFrom host b es).1
  | [], b, hI => ⟨StepSpec.rfl b, hI⟩
  | e :: es, b, hI => by
    obtain ⟨hs, hI2⟩ := step_spec host b e hI
    obtain ⟨hs2, hI3⟩ := runFrom_spec host es (step host b e).1 hI2
    simp only [runFrom]
    exact ⟨StepSpec.comp hs hs2, hI3⟩

theorem run_spec (host : Host) (es : List Event) :
    StepSpec BridgeState.init (run host es).1 (run host es).2 ∧ Inv (run host es).1 :=
  runFrom_spec host es BridgeState.init Inv.init

theorem pendingCount_init (r : Nat) : pendingCount BridgeState.init r = 0 := by
  simp [BridgeState.init, pendingCount, instPendCount]

theorem vsockCount_init (r : Nat) : vsockCount BridgeState.init r = 0 := by
  simp [BridgeState.init, vsockCount]

theorem pendingCount_eq_zero_of_settled {b : BridgeState} (hs : settled b = true) (r : Nat) :
    pendingCount b r = 0 := by
  simp only [settled, Bool.and_eq_true, List.all_eq_true, List.isEmpty_iff] at hs
  obtain ⟨⟨hall, horph⟩, hv⟩ := hs
  have h1 : instPendCount b.instances r = 0 := by
    rw [instPendCount, List.countP_eq_zero]
    intro p hp
    have hpn := hall p hp
    simp only [beq_iff_eq] at hpn ⊢
    simp [hpn]
  simp [pendingCount, h1, horph]

theorem completionsFor_le_one (host : Host) (es : List Event) (r : Nat) :
    completionsFor (run host es).2 r ≤ 1 := by
  have hb := (run_spec host es).1.balance r
  have ho := (run_spec host es).1.once r
  rw [pendingCount_init, Nat.zero_add] at hb
  exact Nat.le_trans (Nat.le_trans (hb ▸ Nat.le_add_right _ _) (Nat.le_add_right _ _)) ho

theorem completionsFor_eq_one_of_settled (host : Host) (es : List Event) (r : Nat)
    (hset : settled (run host es).1 = true) (hacc : acceptedFor (run host es).2 r ≠ 0) :
    completionsFor (run host es).2 r = 1 := by
  have hb := (run_spec host es).1.balance r
  have ho := (run_spec host es).1.once r
  have hp := pendingCount_eq_zero_of_settled hset r
  rw [pendingCount_init, Nat.zero_add, hp, Nat.add_zero] at hb
  rw [hb]
  exact Nat.le_antisymm (Nat.le_trans (Nat.le_add_right _ _) ho) (Nat.pos_of_ne_zero hacc)

theorem vsockCbFor_eq_zero_of_not_accepted (host : Host) (es : List Event) (r : Nat)
    (hacc : vsockAcceptedFor (run host es).2 r = 0) :
    vsockCbFor (run host es).2 r = 0 := by
  have hb := (run_spec host es).1.vBalance r
  rw [vsockCount_init, Nat.zero_add, hacc] at hb
  exact Nat.eq_zero_of_add_eq_zero_right hb

theorem nonEmptyMsg_ne (msg : String) : nonEmptyMsg msg ≠ "" := by
  rw [nonEmptyMsg]
  by_cases h : msg = ""
  · rw [if_pos h]
    decide
  · rw [if_neg h]
    exact h

theorem destroyedMsg_ne : destroyedMsg ≠ "" := by
  rw [destroyedMsg]
  decide

theorem wf_singleton {a : Output} (ha : completionWellFormed a = true) :
    ∀ o ∈ [a], completionWellFormed o = true := by
  intro o ho
  cases List.mem_singleton.mp ho
  exact ha

theorem wf_of_eq {l l2 : List Output} (hl : ∀ o ∈ l, completionWellFormed o = true)
    (he : l2 = l) : ∀ o ∈ l2, completionWellFormed o = true := by
  rw [he]
  exact hl

theorem wf_nil : ∀ o ∈ ([] : List Output), completionWellFormed o = true := by
  intro o ho
  exact absurd ho (List.not_mem_nil o)

theorem wf_rejected (m : String) : ∀ o ∈ [Output.rejected m], completionWellFormed o = true :=
  wf_singleton rfl

theorem wf_accepted (r : Nat) : ∀ o ∈ [Output.accepted r], completionWellFormed o = true :=
  wf_singleton rfl

theorem wf_engineCreate (h : Nat) :
    ∀ o ∈ [Output.engineCreate h], completionWellFormed o = true := wf_singleton rfl

theorem wf_vsockAccepted (r : Nat) :
    ∀ o ∈ [Output.vsockAccepted r], completionWellFormed o = true := wf_singleton rfl

theorem wf_vsockCb (r : Nat) (fd : Int) (m : Option String) :
    ∀ o ∈ [Output.vsockCb r fd m], completionWellFormed o = true := wf_singleton rfl

theorem wf_completion_ok (r : Nat) :
    ∀ o ∈ [Output.completion r true none], completionWellFormed o = true := wf_singleton rfl

theorem wf_completion_fail (r : Nat) (m : String) (hm : m ≠ "") :
    ∀ o ∈ [Output.completion r false (some m)], completionWellFormed o = true := by
  refine wf_singleton ?_
  show (!(m == "")) = true
  simp [hm]

theorem step_outputs_wellFormed (host : Host) (b : BridgeState) (e : Event) :
    ∀ o ∈ (step host b e).2, completionWellFormed o = true := by
  cases e with
  | createHandle => exact wf_nil
  | destroyHandle g => exact wf_nil
  | createVm g cfg =>
    rcases hlg : lookupInstance b g with _ | ig
    · exact wf_of_eq wf_nil (congrArg (fun p => p.2.2) (createVmCore_unknown hlg))
    · rcases hvmg : ig.vm with _ | sg
      · rcases hval : validate host cfg with e2 | c
        · exact wf_of_eq wf_nil (congrArg (fun p => p.2.2) (createVmCore_invalid hlg hvmg hval))
        · exact wf_of_eq (wf_engineCreate g)
            (congrArg (fun p => p.2.2) (createVmCore_ok hlg hvmg hval))
      · exact wf_of_eq wf_nil (congrArg (fun p => p.2.2) (createVmCore_live hlg hvmg))
  | startVm g =>
    rcases hlg : lookupInstance b g with _ | ig
    · exact wf_of_eq (wf_rejected unknownHandleMsg) (congrArg Prod.snd (start_vm_unknown hlg))
    · rcases hprg : ig.pendingReq with _ | r0
      · rcases hvmg : ig.vm with _ | sg
        · exact wf_of_eq (wf_rejected noVmMsg)
            (congrArg Prod.snd (start_vm_noVm hlg hprg hvmg))
        · rcases hstg : startTransition sg with _ | sg2
          · exact wf_of_eq (wf_rejected stateErrorMsg)
              (congrArg Prod.snd (start_vm_guard hlg hprg hvmg hstg))
          · exact wf_of_eq (wf_accepted b.nextReq)
              (congrArg Prod.snd (start_vm_accept hlg hprg hvmg hstg))
      · exact wf_of_eq (wf_rejected busyMsg) (congrArg Prod.snd (start_vm_busy hlg hprg))
  | stopVm g =>
    rcases hlg : lookupInstance b g with _ | ig
    · exact wf_of_eq (wf_rejected unknownHandleMsg) (congrArg Prod.snd (stop_vm_unknown hlg))
    · rcases hprg : ig.pendingReq with _ | r0
      · rcases hvmg : ig.vm with _ | sg
        · exact wf_of_eq (wf_rejected noVmMsg)
            (congrArg Prod.snd (stop_vm_noVm hlg hprg hvmg))
        · rcases hstg : stopTransition sg with _ | sg2
          · exact wf_of_eq (wf_rejected stateErrorMsg)
              (congrArg Prod.snd (stop_vm_guard hlg hprg hvmg hstg))
          · exact wf_of_eq (wf_accepted b.nextReq)
              (congrArg Prod.snd (stop_vm_accept hlg hprg hvmg hstg))
      · exact wf_of_eq (wf_rejected busyMsg) (congrArg Prod.snd (stop_vm_busy hlg hprg))
  | engineDone r0 ok msg =>
    by_cases hmem : r0 ∈ b.orphans
    · exact wf_of_eq (wf_completion_fail r0 destroyedMsg destroyedMsg_ne)
        (congrArg Prod.snd (engine_complete_orphan hmem ok msg))
    · rcases hfp : findPending b.instances r0 with _ | p
      · exact wf_of_eq wf_nil (congrArg Prod.snd (engine_complete_unknown hmem hfp ok msg))
      · cases ok with
        | true =>
          exact wf_of_eq (wf_completion_ok r0)
            (congrArg Prod.snd (engine_complete_pending hmem hfp true msg))
        | false =>
          exact wf_of_eq (wf_completion_fail r0 (nonEmptyMsg msg) (nonEmptyMsg_ne msg))
            (congrArg Prod.snd (engine_complete_pending hmem hfp false msg))
  | vsockConnect g port =>
    rcases hlg : lookupInstance b g with _ | ig
    · exact wf_of_eq (wf_rejected unknownHandleMsg)
        (congrArg Prod.snd (@vsock_connect_unknown b g port hlg))
    · by_cases hrun : ig.vm = some LifecycleState.Running
      · exact wf_of_eq (wf_vsockAccepted b.nextReq)
          (congrArg Prod.snd (@vsock_connect_accept b g port ig hlg hrun))
      · exact wf_of_eq (wf_rejected notRunningMsg)
          (congrArg Prod.snd (@vsock_connect_notRunning b g port ig hlg hrun))
  | vsockDone r0 fd msgo =>
    by_cases hmem : r0 ∈ b.vsockPending
    · exact wf_of_eq (wf_vsockCb r0 fd msgo)
        (congrArg Prod.snd (vsock_complete_pending hmem fd msgo))
    · exact wf_of_eq wf_nil (congrArg Prod.snd (vsock_complete_unknown hmem fd msgo))

theorem runFrom_outputs_wellFormed (host : Host) : ∀ (es : List Event) (b : BridgeState),
    ∀ o ∈ (runFrom host b es).2, completionWellFormed o = true
  | [], b => by
    intro o ho
    simp [runFrom] at ho
  | e :: es, b => by
    intro o ho
    simp only [runFrom] at ho
    rcases List.mem_append.mp ho with h1 | h2
    · exact step_outputs_wellFormed host b e o h1
    · exact runFrom_outputs_wellFormed host es (step host b e).1 o h2

theorem run_outputs_wellFormed (host : Host) (es : List Event) :
    ∀ o ∈ (run host es).2, completionWellFormed o = true :=
  runFrom_outputs_wellFormed host es BridgeState.init

theorem vmStateAt_some {b : BridgeState} {h : Nat} {s : LifecycleState}
    (hs : vmStateAt b h = some s) :
    ∃ i, lookupInstance b h = some i ∧ i.vm = some s := by
  rcases hli : lookupInstance b h with _ | i
  · simp [vmStateAt, hli] at hs
  · simp only [vmStateAt, hli] at hs
    exact ⟨i, rfl, hs⟩

theorem engineTransition_table (s : LifecycleState) (ok : Bool) :
    engineTransition s ok = s ∨ tableStep s (engineTransition s ok) = true := by
  cases s <;> cases ok <;> decide

theorem terminal_no_table (s s2 : LifecycleState) (hterm : isTerminal s = true) :
    tableStep s s2 = false := by
  cases s <;> simp [isTerminal] at hterm <;> cases s2 <;> rfl

theorem table_of_lookup {b b2 : BridgeState} {h : Nat} {s s2 : LifecycleState}
    (hs : vmStateAt b h = some s) (hs2 : vmStateAt b2 h = some s2)
    (he : lookupInstance b2 h = lookupInstance b h) :
    s2 = s ∨ tableStep s s2 = true := by
  have h0 : vmStateAt b2 h = vmStateAt b h := by
    unfold vmStateAt
    rw [he]
  rw [h0, hs] at hs2
  exact Or.inl (Option.some.inj hs2).symm

theorem startTransition_table {a a2 : LifecycleState} (ht : startTransition a = some a2) :
    tableStep a a2 = true := by
  cases a
  case Created =>
    cases Option.some.inj ht
    rfl
  all_goals exact Option.noConfusion ht

theorem stopTransition_table {a a2 : LifecycleState} (ht : stopTransition a = some a2) :
    tableStep a a2 = true := by
  cases a
  case Running =>
    cases Option.some.inj ht
    rfl
  all_goals exact Option.noConfusion ht

theorem step_table {host : Host} {b : BridgeState} {e : Event} {h : Nat}
    {s s2 : LifecycleState} (hI : Inv b)
    (hs : vmStateAt b h = some s) (hs2 : vmStateAt (step host b e).1 h = some s2) :
    s2 = s ∨ tableStep s s2 = true := by
  obtain ⟨i, hli, hvi⟩ := vmStateAt_some hs
  have hli0 : b.instances.lookup h = some i := hli
  cases e with
  | createHandle =>
    have hs2x : vmStateAt (vm_bridge_create b).1 h = some s2 := hs2
    by_cases hh : h = b.nextHandle
    · subst hh
      obtain ⟨i2, hli2, hvi2⟩ := vmStateAt_some hs2x
      have hli2x : List.lookup b.nextHandle
          ((b.nextHandle, (⟨none, none⟩ : VMInstance)) :: b.instances) = some i2 := hli2
      simp only [List.lookup, beq_self_eq_true] at hli2x
      cases Option.some.inj hli2x
      exact Option.noConfusion hvi2
    · refine table_of_lookup hs hs2x ?_
      have hkf : (h == b.nextHandle) = false := by simp [hh]
      show List.lookup h ((b.nextHandle, (⟨none, none⟩ : VMInstance)) :: b.instances)
          = List.lookup h b.instances
      simp only [List.lookup, hkf]
  | destroyHandle g =>
    have hs2x : vmStateAt (vm_bridge_destroy b g) h = some s2 := hs2
    rcases hlg : b.instances.lookup g with _ | ig
    · exact table_of_lookup hs hs2x
        (congrArg (fun st => lookupInstance st h) (destroy_unknown hlg))
    · by_cases hh : h = g
      · subst hh
        obtain ⟨i2, hli2, hvi2⟩ := vmStateAt_some hs2x
        have hnone : lookupInstance (vm_bridge_destroy b h) h = none := by
          rcases hpr : ig.pendingReq with _ | r0
          · rw [destroy_idle hlg hpr]
            exact lookup_removeKey_self b.instances h
          · rw [destroy_pending hlg hpr]
            exact lookup_removeKey_self b.instances h
        rw [hnone] at hli2
        exact Option.noConfusion hli2
      · refine table_of_lookup hs hs2x ?_
        rcases hpr : ig.pendingReq with _ | r0
        · rw [destroy_idle hlg hpr]
          exact lookup_removeKey_ne hh
        · rw [destroy_pending hlg hpr]
          exact lookup_removeKey_ne hh
  | createVm g cfg =>
    have hs2x : vmStateAt (createVmCore host b g cfg).1 h = some s2 := hs2
    rcases hlg : b.instances.lookup g with _ | ig
    · exact table_of_lookup hs hs2x
        (congrArg (fun p => lookupInstance p.1 h) (createVmCore_unknown hlg))
    · rcases hvmg : ig.vm with _ | sg
      · rcases hval : validate host cfg with e2 | c
        · exact table_of_lookup hs hs2x
            (congrArg (fun p => lookupInstance p.1 h) (createVmCore_invalid hlg hvmg hval))
        · by_cases hh : h = g
          · subst hh
            rw [hli0] at hlg
            cases hlg
            rw [hvi] at hvmg
            exact Option.noConfusion hvmg
          · refine table_of_lookup hs hs2x ?_
            rw [createVmCore_ok hlg hvmg hval]
            exact lookup_updateInstance_ne hh
      · exact table_of_lookup hs hs2x
          (congrArg (fun p => lookupInstance p.1 h) (createVmCore_live hlg hvmg))
  | startVm g =>
    have hs2x : vmStateAt (vm_bridge_start_vm b g).1 h = some s2 := hs2
    rcases hlg : b.instances.lookup g with _ | ig
    · exact table_of_lookup hs hs2x
        (congrArg (fun p => lookupInstance p.1 h) (start_vm_unknown hlg))
    · rcases hprg : ig.pendingReq with _ | r0
      · rcases hvmg : ig.vm with _ | sg
        · exact table_of_lookup hs hs2x
            (congrArg (fun p => lookupInstance p.1 h) (start_vm_noVm hlg hprg hvmg))
        · rcases hstg : startTransition sg with _ | sg2
          · exact table_of_lookup hs hs2x
              (congrArg (fun p => lookupInstance p.1 h) (start_vm_guard hlg hprg hvmg hstg))
          · by_cases hh : h = g
            · subst hh
              rw [hli0] at hlg
              cases hlg
              obtain ⟨i2, hli2, hvi2⟩ := vmStateAt_some hs2x
              have hli2x : (updateInstance b.instances h ⟨some sg2, some b.nextReq⟩).lookup h
                  = some i2 := by
                rw [start_vm_accept hli0 hprg hvmg hstg] at hli2
                exact hli2
              rw [lookup_updateInstance_self ⟨some sg2, some b.nextReq⟩ hli0] at hli2x
              cases Option.some.inj hli2x
              have hsg : s = sg := Option.some.inj (hvi.symm.trans hvmg)
              have hsg2 : sg2 = s2 := Option.some.inj hvi2
              right
              rw [hsg, ← hsg2]
              exact startTransition_table hstg
            · refine table_of_lookup hs hs2x ?_
              rw [start_vm_accept hlg hprg hvmg hstg]
              exact lookup_updateInstance_ne hh
      · exact table_of_lookup hs hs2x
          (congrArg (fun p => lookupInstance p.1 h) (start_vm_busy hlg hprg))
  | stopVm g =>
    have hs2x : vmStateAt (vm_bridge_stop_vm b g).1 h = some s2 := hs2
    rcases hlg : b.instances.lookup g with _ | ig
    · exact table_of_lookup hs hs2x
        (congrArg (fun p => lookupInstance p.1 h) (stop_vm_unknown hlg))
    · rcases hprg : ig.pendingReq with _ | r0
      · rcases hvmg : ig.vm with _ | sg
        · exact table_of_lookup hs hs2x
            (congrArg (fun p => lookupInstance p.1 h) (stop_vm_noVm hlg hprg hvmg))
        · rcases hstg : stopTransition sg with _ | sg2
          · exact table_of_lookup hs hs2x
              (congrArg (fun p => lookupInstance p.1 h) (stop_vm_guard hlg hprg hvmg hstg))
          · by_cases hh : h = g
            · subst hh
              rw [hli0] at hlg
              cases hlg
              obtain ⟨i2, hli2, hvi2⟩ := vmStateAt_some hs2x
              have hli2x : (updateInstance b.instances h ⟨some sg2, some b.nextReq⟩).lookup h
                  = some i2 := by
                rw [stop_vm_accept hli0 hprg hvmg hstg] at hli2
                exact hli2
              rw [lookup_updateInstance_self ⟨some sg2, some b.nextReq⟩ hli0] at hli2x
              cases Option.some.inj hli2x
              have hsg : s = sg := Option.some.inj (hvi.symm.trans hvmg)
              have hsg2 : sg2 = s2 := Option.some.inj hvi2
              right
              rw [hsg, ← hsg2]
              exact stopTransition_table hstg
            · refine table_of_lookup hs hs2x ?_
              rw [stop_vm_accept hlg hprg hvmg hstg]
              exact lookup_updateInstance_ne hh
      · exact table_of_lookup hs hs2x
          (congrArg (fun p => lookupInstance p.1 h) (stop_vm_busy hlg hprg))
  | engineDone r0 ok msg =>
    have hs2x : vmStateAt (engine_complete b r0 ok msg).1 h = some s2 := hs2
    by_cases hmem : r0 ∈ b.orphans
    · exact table_of_lookup hs hs2x
        (congrArg (fun p => lookupInstance p.1 h) (engine_complete_orphan hmem ok msg))
    · rcases hfp : findPending b.instances r0 with _ | p
      · exact table_of_lookup hs hs2x
          (congrArg (fun q => lookupInstance q.1 h) (engine_complete_unknown hmem hfp ok msg))
      · obtain ⟨hpmem, hpend⟩ := findPending_some hfp
        have hlp : b.instances.lookup p.1 = some p.2 :=
          lookup_of_mem_nodup hI.keysNodup hpmem
        by_cases hh : h = p.1
        · subst hh
          obtain ⟨i2, hli2, hvi2⟩ := vmStateAt_some hs2x
          have hli2x : (updateInstance b.instances p.1 ⟨settleState p.2.vm ok, none⟩).lookup p.1
              = some i2 := by
            rw [engine_complete_pending hmem hfp ok msg] at hli2
            exact hli2
          rw [lookup_updateInstance_self ⟨settleState p.2.vm ok, none⟩ hlp] at hli2x
          cases Option.some.inj hli2x
          have hpv : p.2.vm = some s := by
            have h1 : some p.2 = some i := hlp.symm.trans hli0
            rw [← Option.some.inj h1] at hvi
            exact hvi
          have hvi2x : settleState p.2.vm ok = some s2 := hvi2
          rw [hpv] at hvi2x
          have hses : some (engineTransition s ok) = some s2 := hvi2x
          cases Option.some.inj hses
          exact engineTransition_table s ok
        · refine table_of_lookup hs hs2x ?_
          rw [engine_complete_pending hmem hfp ok msg]
          exact lookup_updateInstance_ne hh
  | vsockConnect g port =>
    have hs2x : vmStateAt (vm_bridge_vsock_connect b g port).1 h = some s2 := hs2
    rcases hlg : b.instances.lookup g with _ | ig
    · exact table_of_lookup hs hs2x
        (congrArg (fun p => lookupInstance p.1 h) (@vsock_connect_unknown b g port hlg))
    · by_cases hrun : ig.vm = some LifecycleState.Running
      · exact table_of_lookup hs hs2x
          (congrArg (fun p => lookupInstance p.1 h) (@vsock_connect_accept b g port ig hlg hrun))
      · exact table_of_lookup hs hs2x
          (congrArg (fun p => lookupInstance p.1 h)
            (@vsock_connect_notRunning b g port ig hlg hrun))
  | vsockDone r0 fd msgo =>
    have hs2x : vmStateAt (vsock_complete b r0 fd msgo).1 h = some s2 := hs2
    by_cases hmem : r0 ∈ b.vsockPending
    · exact table_of_lookup hs hs2x
        (congrArg (fun p => lookupInstance p.1 h) (vsock_complete_pending hmem fd msgo))
    · exact table_of_lookup hs hs2x
        (congrArg (fun p => lookupInstance p.1 h) (vsock_complete_unknown hmem fd msgo))

theorem validate_rejects_zero (host : Host) (cfg : DeviceConfig)
    (hz : cfg.memory_bytes = 0 ∨ cfg.cpu_count = 0) :
    ∃ e, validate host cfg = Except.error e := by
  unfold validate
  split
  · exact ⟨_, rfl⟩
  · split
    · exact ⟨_, rfl⟩
    · split
      · exact ⟨_, rfl⟩
      · split
        · exact ⟨_, rfl⟩
        · exfalso
          rename_i hmemc hcpuc
          rcases hz with h0 | h0
          · simp [h0] at hmemc
          · simp [h0] at hcpuc

theorem createVmCore_zero (host : Host) (b : BridgeState) (h : Nat) (cfg : DeviceConfig)
    (hz : cfg.memory_bytes = 0 ∨ cfg.cpu_count = 0) :
    createVmCore host b h cfg = (b, false, []) := by
  obtain ⟨e, he⟩ := validate_rejects_zero host cfg hz
  rcases hlk : lookupInstance b h with _ | i
  · simp [createVmCore, hlk]
  · rcases hvm : i.vm with _ | s
    · simp [createVmCore, hlk, hvm, he]
    · simp [createVmCore, hlk, hvm]

theorem except_isOk_error (e : ConfigError) :
    (Except.error e : Except ConfigError DeviceConfig).isOk = false := rfl

theorem except_isOk_ok (c : DeviceConfig) :
    (Except.ok c : Except ConfigError DeviceConfig).isOk = true := rfl

theorem validate_tail_isOk (host : Host) (c0 : DeviceConfig) (mem cpu : Nat) :
    (if mem = 0 || host.max_memory < mem then
        (Except.error ConfigError.badMemory : Except ConfigError DeviceConfig)
      else if cpu = 0 || host.max_cpus < cpu then Except.error ConfigError.badCpu
      else Except.ok c0).isOk
      = (decide (0 < mem) && decide (mem ≤ host.max_memory)
          && decide (0 < cpu) && decide (cpu ≤ host.max_cpus)) := by
  rcases h3 : (decide (mem = 0) || decide (host.max_memory < mem)) with _ | _
  · rw [if_neg Bool.false_ne_true]
    rcases h5 : (decide (cpu = 0) || decide (host.max_cpus < cpu)) with _ | _
    · rw [if_neg Bool.false_ne_true, except_isOk_ok]
      simp only [Bool.or_eq_false_iff, decide_eq_false_iff_not] at h3 h5
      have hc1 : decide (0 < mem) = true := decide_eq_true (Nat.pos_of_ne_zero h3.1)
      have hc2 : decide (mem ≤ host.max_memory) = true :=
        decide_eq_true (Nat.not_lt.mp h3.2)
      have hc3 : decide (0 < cpu) = true := decide_eq_true (Nat.pos_of_ne_zero h5.1)
      have hc4 : decide (cpu ≤ host.max_cpus) = true :=
        decide_eq_true (Nat.not_lt.mp h5.2)
      rw [hc1, hc2, hc3, hc4]
      rfl
    · rw [if_pos rfl, except_isOk_error]
      simp only [Bool.or_eq_true, decide_eq_true_eq] at h5
      rcases h5 with h0 | h0
      · have hc3 : decide (0 < cpu) = false :=
          decide_eq_false (fun hlt => Nat.lt_irrefl 0 (h0 ▸ hlt))
        rw [hc3, Bool.and_false, Bool.false_and]
      · have hc4 : decide (cpu ≤ host.max_cpus) = false :=
          decide_eq_false (fun hle => Nat.lt_irrefl _ (Nat.lt_of_lt_of_le h0 hle))
        rw [hc4, Bool.and_false]
  · rw [if_pos rfl, except_isOk_error]
    simp only [Bool.or_eq_true, decide_eq_true_eq] at h3
    rcases h3 with h0 | h0
    · have hc1 : decide (0 < mem) = false :=
        decide_eq_false (fun hlt => Nat.lt_irrefl 0 (h0 ▸ hlt))
      rw [hc1, Bool.false_and, Bool.false_and, Bool.false_and]
    · have hc2 : decide (mem ≤ host.max_memory) = false :=
        decide_eq_false (fun hle => Nat.lt_irrefl _ (Nat.lt_of_lt_of_le h0 hle))
      rw [hc2, Bool.and_false, Bool.false_and, Bool.false_and]

theorem validate_min_isOk (host : Host) (kernel : String) (ini : Option String)
    (mem cpu : Nat) :
    (validate host ⟨kernel, ini, mem, cpu, [], NetworkMode.offline, none⟩).isOk
      = (host.files.contains kernel
          && (match ini with
              | none => true
              | some p => host.files.contains p)
          && decide (0 < mem) && decide (mem ≤ host.max_memory)
          && decide (0 < cpu) && decide (cpu ≤ host.max_cpus)) := by
  unfold validate initramfsMissing
  dsimp only [firstBadDisk, bridgeProblem]
  rcases h1 : host.files.contains kernel with _ | _
  · rw [Bool.not_false, if_pos rfl, except_isOk_error, Bool.false_and, Bool.false_and,
        Bool.false_and, Bool.false_and, Bool.false_and]
  · rw [Bool.not_true, if_neg Bool.false_ne_true, Bool.true_and]
    cases ini with
    | none =>
      dsimp only
      rw [Bool.true_and]
      exact validate_tail_isOk host _ mem cpu
    | some p =>
      dsimp only
      rcases h2 : host.files.contains p with _ | _
      · rw [if_neg Bool.false_ne_true]
        dsimp only
        rw [except_isOk_error, Bool.false_and, Bool.false_and, Bool.false_and, Bool.false_and]
      · rw [if_pos rfl]
        dsimp only
        rw [Bool.true_and]
        exact validate_tail_isOk host _ mem cpu

theorem create_vm_min_unknown {host : Host} {b : BridgeState} {h : Nat}
    {k : String} {ini : Option String} {m c : Nat}
    (hlk : lookupInstance b h = none) :
    vm_bridge_create_vm host b h k ini m c = (b, false, []) := by
  simp only [vm_bridge_create_vm, hlk]

theorem create_vm_min_live {host : Host} {b : BridgeState} {h : Nat}
    {k : String} {ini : Option String} {m c : Nat} {i : VMInstance} {s : LifecycleState}
    (hlk : lookupInstance b h = some i) (hvm : i.vm = some s) :
    vm_bridge_create_vm host b h k ini m c = (b, false, []) := by
  simp only [vm_bridge_create_vm, hlk, hvm]

theorem create_vm_min_cond {host : Host} {b : BridgeState} {h : Nat}
    {k : String} {ini : Option String} {m c : Nat} {i : VMInstance}
    (hlk : lookupInstance b h = some i) (hvm : i.vm = none) :
    vm_bridge_create_vm host b h k ini m c
      = if host.files.contains k
            && (match ini with
                | none => true
                | some p => host.files.contains p)
            && decide (0 < m) && decide (m ≤ host.max_memory)
            && decide (0 < c) && decide (c ≤ host.max_cpus) then
          ({ b with instances := updateInstance b.instances h ⟨some LifecycleState.Created, i.pendingReq⟩ }, true, [Output.engineCreate h])
        else (b, false, []) := by
  simp only [vm_bridge_create_vm, hlk, hvm]

theorem minimal_eq_full_aux (host : Host) (b : BridgeState) (h : Nat)
    (kernel : String) (initramfs : Option String) (mem cpu : Nat) :
    vm_bridge_create_vm host b h kernel initramfs mem cpu
      = createVmCore host b h ⟨kernel, initramfs, mem, cpu, [], NetworkMode.offline, none⟩ := by
  rcases hlk : lookupInstance b h with _ | i
  · rw [create_vm_min_unknown hlk, createVmCore_unknown hlk]
  · rcases hvm : i.vm with _ | s
    · rw [create_vm_min_cond hlk hvm]
      have hiff := validate_min_isOk host kernel initramfs mem cpu
      rcases hval : validate host ⟨kernel, initramfs, mem, cpu, [], NetworkMode.offline, none⟩
        with e2 | c2
      · rw [createVmCore_invalid hlk hvm hval]
        rw [hval, except_isOk_error] at hiff
        rw [← hiff, if_neg Bool.false_ne_true]
      · rw [createVmCore_ok hlk hvm hval]
        rw [hval, except_isOk_ok] at hiff
        rw [← hiff, if_pos rfl]
    · rw [create_vm_min_live hlk hvm, createVmCore_live hlk hvm]

/-- C1: for every accepted start or stop request, the completion callback
is invoked exactly once — at most once on every run, and exactly once when
the bridge settles — carrying either success (no message) or a non-empty
human-readable error message; destroying the handle while the operation is
outstanding still yields the single callback, reporting failure. -/
theorem vm_callback_exactly_once :
    (∀ (host : Host) (es : List Event) (r : Nat),
        completionsFor (run host es).2 r ≤ 1)
  ∧ (∀ (host : Host) (es : List Event) (r : Nat),
        settled (run host es).1 = true → acceptedFor (run host es).2 r ≠ 0 →
        completionsFor (run host es).2 r = 1)
  ∧ (∀ (host : Host) (es : List Event) (o : Output), o ∈ (run host es).2 →
        completionWellFormed o = true)
  ∧ (∀ (b : BridgeState) (h : Nat) (i : VMInstance) (r : Nat),
        lookupInstance b h = some i → i.pendingReq = some r →
        r ∈ (vm_bridge_destroy b h).orphans)
  ∧ (∀ (b : BridgeState) (r : Nat) (ok : Bool) (msg : String), r ∈ b.orphans →
        (engine_complete b r ok msg).2
          = [Output.completion r false (some destroyedMsg)]) := by
  refine ⟨completionsFor_le_one, completionsFor_eq_one_of_settled,
    run_outputs_wellFormed, ?_, ?_⟩
  · intro b h i r hlk hpr
    simp [vm_bridge_destroy, hlk, hpr]
  · intro b r ok msg hmem
    rw [engine_complete_orphan hmem ok msg]

theorem vm_callback_exactly_once_witness :
    completionsFor (run wHost wEvents).2 0 = 1
    ∧ (0 : Nat) ∈ (vm_bridge_destroy wPendingState 0).orphans
    ∧ (engine_complete wOrphanState 0 true "").2
        = [Output.completion 0 false (some destroyedMsg)] :=
  ⟨vm_callback_exactly_once.2.1 wHost wEvents 0 (by rfl) (by decide),
   vm_callback_exactly_once.2.2.2.1 wPendingState 0
     ⟨some LifecycleState.Starting, some 0⟩ 0 (by rfl) (by rfl),
   vm_callback_exactly_once.2.2.2.2 wOrphanState 0 true "" (by decide)⟩

/-- C2: for every live VM instance, can_start is true iff its current
lifecycle state is Created, and can_stop is true iff it is Running. -/
theorem can_start_can_stop_iff_state :
    ∀ (b : BridgeState) (h : Nat) (i : VMInstance) (s : LifecycleState),
      lookupInstance b h = some i → i.vm = some s →
      (vm_bridge_can_start b h = true ↔ s = LifecycleState.Created)
      ∧ (vm_bridge_can_stop b h = true ↔ s = LifecycleState.Running) := by
  intro b h i s hlk hvm
  have h1 : vm_bridge_can_start b h = canStartState s := by
    simp [vm_bridge_can_start, hlk, hvm]
  have h2 : vm_bridge_can_stop b h = canStopState s := by
    simp [vm_bridge_can_stop, hlk, hvm]
  rw [h1, h2]
  cases s <;>
    simp [canStartState, canStopState, startTransition, stopTransition]

theorem can_start_can_stop_iff_state_witness :
    (vm_bridge_can_start wCreatedState 0 = true
      ↔ LifecycleState.Created = LifecycleState.Created)
    ∧ (vm_bridge_can_stop wCreatedState 0 = true
      ↔ LifecycleState.Created = LifecycleState.Running) :=
  can_start_can_stop_iff_state wCreatedState 0 ⟨some LifecycleState.Created, none⟩
    LifecycleState.Created (by rfl) (by rfl)

/-- C3: a second start or stop requested on an instance while an operation
is outstanding is rejected synchronously (bridge state unchanged, a single
synchronous rejection, nothing queued), and the rejection carries no
completion callback and no acceptance for the first request. -/
theorem second_request_rejected :
    ∀ (b : BridgeState) (h : Nat) (i : VMInstance) (r : Nat),
      lookupInstance b h = some i → i.pendingReq = some r →
      vm_bridge_start_vm b h = (b, [Output.rejected busyMsg])
      ∧ vm_bridge_stop_vm b h = (b, [Output.rejected busyMsg])
      ∧ completionsFor [Output.rejected busyMsg] r = 0
      ∧ acceptedFor [Output.rejected busyMsg] r = 0 := by
  intro b h i r hlk hpr
  refine ⟨?_, ?_, ?_, ?_⟩
  · simp [vm_bridge_start_vm, hlk, hpr]
  · simp [vm_bridge_stop_vm, hlk, hpr]
  · simp [completionsFor, countP_singleton, isCompletionFor]
  · simp [acceptedFor, countP_singleton, isAcceptedFor]

theorem second_request_rejected_witness :
    vm_bridge_start_vm wPendingState 0 = (wPendingState, [Output.rejected busyMsg])
    ∧ vm_bridge_stop_vm wPendingState 0 = (wPendingState, [Output.rejected busyMsg])
    ∧ completionsFor [Output.rejected busyMsg] 0 = 0
    ∧ acceptedFor [Output.rejected busyMsg] 0 = 0 :=
  second_request_rejected wPendingState 0 ⟨some LifecycleState.Starting, some 0⟩ 0
    (by rfl) (by rfl)

/-- C4: on every reachable bridge state, one step changes a VM's lifecycle
state only along the transition table; terminal states (Stopped, Error)
admit no further change; and a start or stop violating its guard is
rejected synchronously with a state error, leaving the bridge unchanged. -/
theorem lifecycle_table_respected :
    (∀ (host : Host) (es : List Event) (e : Event) (h : Nat) (s s2 : LifecycleState),
        vmStateAt (run host es).1 h = some s →
        vmStateAt (step host (run host es).1 e).1 h = some s2 →
        s2 = s ∨ tableStep s s2 = true)
  ∧ (∀ (host : Host) (es : List Event) (e : Event) (h : Nat) (s s2 : LifecycleState),
        vmStateAt (run host es).1 h = some s →
        vmStateAt (step host (run host es).1 e).1 h = some s2 →
        isTerminal s = true → s2 = s)
  ∧ (∀ (b : BridgeState) (h : Nat) (i : VMInstance) (s : LifecycleState),
        lookupInstance b h = some i → i.pendingReq = none → i.vm = some s →
        startTransition s = none →
        vm_bridge_start_vm b h = (b, [Output.rejected stateErrorMsg]))
  ∧ (∀ (b : BridgeState) (h : Nat) (i : VMInstance) (s : LifecycleState),
        lookupInstance b h = some i → i.pendingReq = none → i.vm = some s →
        stopTransition s = none →
        vm_bridge_stop_vm b h = (b, [Output.rejected stateErrorMsg])) := by
  refine ⟨?_, ?_, ?_, ?_⟩
  · intro host es e h s s2 hs hs2
    exact step_table (run_spec host es).2 hs hs2
  · intro host es e h s s2 hs hs2 hterm
    rcases step_table (run_spec host es).2 hs hs2 with he | he
    · exact he
    · rw [terminal_no_table s s2 hterm] at he
      exact absurd he (by simp)
  · intro b h i s hlk hpr hvm hst
    simp [vm_bridge_start_vm, hlk, hpr, hvm, hst]
  · intro b h i s hlk hpr hvm hst
    simp [vm_bridge_stop_vm, hlk, hpr, hvm, hst]

theorem lifecycle_table_respected_witness :
    LifecycleState.Starting = LifecycleState.Created
    ∨ tableStep LifecycleState.Created LifecycleState.Starting = true :=
  lifecycle_table_respected.1 wHost [Event.createHandle, Event.createVm 0 wCfg]
    (Event.startVm 0) 0 LifecycleState.Created LifecycleState.Starting
    (by rfl) (by rfl)

/-- C5 as stated is false: the claim requires every create, start and stop
request to deliver an asynchronous completion signal, but the header
declares vm_bridge_create_vm with no completion callback parameter and a
synchronous bool return. -/
theorem create_completion_callback_counterexample :
    ¬ (takesCompletionCallback vm_bridge_create_vm_decl = true
       ∧ takesCompletionCallback vm_bridge_start_vm_decl = true
       ∧ takesCompletionCallback vm_bridge_stop_vm_decl = true) := by
  decide

/-- C5 (amended): start and stop requests register a completion callback
and deliver exactly one asynchronous completion signal each (at most once
always, exactly once when the bridge settles); create reports success or
failure synchronously through its boolean return value and registers no
completion callback. -/
theorem start_stop_async_create_sync :
    takesCompletionCallback vm_bridge_start_vm_decl = true
  ∧ takesCompletionCallback vm_bridge_stop_vm_decl = true
  ∧ takesCompletionCallback vm_bridge_create_vm_decl = false
  ∧ vm_bridge_create_vm_decl.ret = CType.bool
  ∧ vm_bridge_start_vm_decl.ret = CType.void
  ∧ vm_bridge_stop_vm_decl.ret = CType.void
  ∧ (∀ (host : Host) (es : List Event) (r : Nat),
        completionsFor (run host es).2 r ≤ 1)
  ∧ (∀ (host : Host) (es : List Event) (r : Nat),
        settled (run host es).1 = true → acceptedFor (run host es).2 r ≠ 0 →
        completionsFor (run host es).2 r = 1) :=
  ⟨rfl, rfl, rfl, rfl, rfl, rfl, completionsFor_le_one,
   completionsFor_eq_one_of_settled⟩

theorem start_stop_async_create_sync_witness :
    completionsFor (run wHost wEvents).2 1 = 1 :=
  start_stop_async_create_sync.2.2.2.2.2.2.2 wHost wEvents 1 (by rfl) (by decide)

/-- C6: get_state is total and never fails — for an unknown handle it
returns the sentinel code instead of erroring, a destroyed handle likewise
maps to the sentinel, and on any input the result is either the sentinel or
the code of a lifecycle state. -/
theorem get_state_total_sentinel :
    (∀ (b : BridgeState) (h : Nat), lookupInstance b h = none →
        vm_bridge_get_state b h = STATE_UNKNOWN)
  ∧ (∀ (b : BridgeState) (h : Nat),
        vm_bridge_get_state (vm_bridge_destroy b h) h = STATE_UNKNOWN)
  ∧ (∀ (b : BridgeState) (h : Nat),
        vm_bridge_get_state b h = STATE_UNKNOWN
        ∨ ∃ s : LifecycleState, vm_bridge_get_state b h = stateCode s) := by
  refine ⟨?_, ?_, ?_⟩
  · intro b h hlk
    simp [vm_bridge_get_state, hlk]
  · intro b h
    rcases hlk : lookupInstance b h with _ | i
    · simp [vm_bridge_destroy, hlk, vm_bridge_get_state]
    · have hrm : lookupInstance (vm_bridge_destroy b h) h = none := by
        have hlk0 : b.instances.lookup h = some i := hlk
        simp only [vm_bridge_destroy, lookupInstance, hlk0]
        exact lookup_removeKey_self b.instances h
      simp [vm_bridge_get_state, hrm]
  · intro b h
    rcases hlk : lookupInstance b h with _ | i
    · left
      simp [vm_bridge_get_state, hlk]
    · rcases hvm : i.vm with _ | s
      · left
        simp [vm_bridge_get_state, hlk, hvm]
      · right
        exact ⟨s, by simp [vm_bridge_get_state, hlk, hvm]⟩

theorem get_state_total_sentinel_witness :
    vm_bridge_get_state BridgeState.init 5 = STATE_UNKNOWN :=
  get_state_total_sentinel.1 BridgeState.init 5 (by rfl)

/-- C7: vsock_connect on an instance that is not Running is rejected
synchronously with a state error, leaves the bridge unchanged (no
connection attempt is recorded), and the connection callback never fires
for a request that was never accepted. -/
theorem vsock_requires_running :
    (∀ (b : BridgeState) (h : Nat) (i : VMInstance) (port : Nat),
        lookupInstance b h = some i → i.vm ≠ some LifecycleState.Running →
        vm_bridge_vsock_connect b h port = (b, [Output.rejected notRunningMsg]))
  ∧ (∀ (host : Host) (es : List Event) (r : Nat),
        vsockAcceptedFor (run host es).2 r = 0 → vsockCbFor (run host es).2 r = 0) := by
  constructor
  · intro b h i port hlk hne
    have hrun : (i.vm == some LifecycleState.Running) = false := by
      simp [hne]
    simp only [vm_bridge_vsock_connect, hlk]
    rw [if_neg (by simp [hrun])]
  · exact vsockCbFor_eq_zero_of_not_accepted

theorem vsock_requires_running_witness :
    vm_bridge_vsock_connect wCreatedState 0 1024
      = (wCreatedState, [Output.rejected notRunningMsg])
    ∧ vsockCbFor (run wHost wEvents).2 0 = 0 :=
  ⟨vsock_requires_running.1 wCreatedState 0 ⟨some LifecycleState.Created, none⟩ 1024
     (by rfl) (by decide),
   vsock_requires_running.2 wHost wEvents 0 (by rfl)⟩

/-- C8: every configuration with zero memory or zero CPU count is rejected
by validation, and no engine call is attempted for it — creation returns
false, leaves the bridge unchanged and emits no engine-create output,
through both the core path and the extended entry point. -/
theorem zero_resources_rejected :
    (∀ (host : Host) (cfg : DeviceConfig),
        cfg.memory_bytes = 0 ∨ cfg.cpu_count = 0 →
        ∃ e, validate host cfg = Except.error e)
  ∧ (∀ (host : Host) (b : BridgeState) (h : Nat) (cfg : DeviceConfig),
        cfg.memory_bytes = 0 ∨ cfg.cpu_count = 0 →
        createVmCore host b h cfg = (b, false, []))
  ∧ (∀ (host : Host) (b : BridgeState) (h : Nat) (kernel : String)
        (initramfs : Option String) (mem cpu : Nat) (dp : List String)
        (ds : List Nat) (dro : List Bool) (dc : Nat) (nm : String)
        (bi : Option String),
        mem = 0 ∨ cpu = 0 →
        vm_bridge_create_vm_full host b h kernel initramfs mem cpu dp ds dro dc nm bi
          = (b, false, [])) := by
  refine ⟨validate_rejects_zero, createVmCore_zero, ?_⟩
  intro host b h kernel initramfs mem cpu dp ds dro dc nm bi hz
  unfold vm_bridge_create_vm_full
  exact createVmCore_zero host b h _ hz

theorem zero_resources_rejected_witness :
    (∃ e, validate wHost ⟨"k", none, 0, 2, [], NetworkMode.offline, none⟩ = Except.error e)
    ∧ createVmCore wHost BridgeState.init 0 ⟨"k", none, 0, 2, [], NetworkMode.offline, none⟩
        = (BridgeState.init, false, [])
    ∧ vm_bridge_create_vm_full wHost BridgeState.init 0 "k" none 0 2 [] [] [] 0 "none" none
        = (BridgeState.init, false, []) :=
  ⟨zero_resources_rejected.1 wHost ⟨"k", none, 0, 2, [], NetworkMode.offline, none⟩
     (Or.inl rfl),
   zero_resources_rejected.2.1 wHost BridgeState.init 0
     ⟨"k", none, 0, 2, [], NetworkMode.offline, none⟩ (Or.inl rfl),
   zero_resources_rejected.2.2 wHost BridgeState.init 0 "k" none 0 2 [] [] [] 0 "none" none
     (Or.inl rfl)⟩

/-- C9: the minimal creation entry point behaves identically to the
extended entry point invoked with the same arguments plus zero disks and
network mode "none" with no bridge interface — the minimal form is a
convenience alias of the extended form. -/
theorem create_vm_minimal_alias_full :
    ∀ (host : Host) (b : BridgeState) (h : Nat) (kernel : String)
      (initramfs : Option String) (mem cpu : Nat),
      vm_bridge_create_vm host b h kernel initramfs mem cpu
        = vm_bridge_create_vm_full host b h kernel initramfs mem cpu
            [] [] [] 0 "none" none := by
  intro host b h kernel initramfs mem cpu
  rw [minimal_eq_full_aux host b h kernel initramfs mem cpu]
  unfold vm_bridge_create_vm_full
  have h1 : mkDisks [] [] [] 0 = [] := rfl
  have h2 : parseNetworkMode "none" = NetworkMode.offline := by
    simp [parseNetworkMode]
  rw [h1, h2]

/-- C10: can_start and can_stop are total boolean queries on any handle
value — false for an unknown handle, false after the handle is destroyed,
and true only when the handle refers to a live instance in the matching
state (Created for can_start, Running for can_stop). -/
theorem can_start_can_stop_total :
    (∀ (b : BridgeState) (h : Nat), lookupInstance b h = none →
        vm_bridge_can_start b h = false ∧ vm_bridge_can_stop b h = false)
  ∧ (∀ (b : BridgeState) (h : Nat),
        vm_bridge_can_start (vm_bridge_destroy b h) h = false
        ∧ vm_bridge_can_stop (vm_bridge_destroy b h) h = false)
  ∧ (∀ (b : BridgeState) (h : Nat), vm_bridge_can_start b h = true →
        ∃ i, lookupInstance b h = some i ∧ i.vm = some LifecycleState.Created)
  ∧ (∀ (b : BridgeState) (h : Nat), vm_bridge_can_stop b h = true →
        ∃ i, lookupInstance b h = some i ∧ i.vm = some LifecycleState.Running) := by
  refine ⟨?_, ?_, ?_, ?_⟩
  · intro b h hlk
    constructor
    · simp [vm_bridge_can_start, hlk]
    · simp [vm_bridge_can_stop, hlk]
  · intro b h
    rcases hlk : lookupInstance b h with _ | i
    · constructor
      · simp [vm_bridge_can_start, vm_bridge_destroy, hlk]
      · simp [vm_bridge_can_stop, vm_bridge_destroy, hlk]
    · have hrm : lookupInstance (vm_bridge_destroy b h) h = none := by
        have hlk0 : b.instances.lookup h = some i := hlk
        simp only [vm_bridge_destroy, lookupInstance, hlk0]
        exact lookup_removeKey_self b.instances h
      constructor
      · simp [vm_bridge_can_start, hrm]
      · simp [vm_bridge_can_stop, hrm]
  · intro b h hcs
    rcases hlk : lookupInstance b h with _ | i
    · simp [vm_bridge_can_start, hlk] at hcs
    · rcases hvm : i.vm with _ | s
      · simp [vm_bridge_can_start, hlk, hvm] at hcs
      · refine ⟨i, rfl, ?_⟩
        simp only [vm_bridge_can_start, hlk, hvm] at hcs
        cases s <;> simp_all [canStartState, startTransition]
  · intro b h hcs
    rcases hlk : lookupInstance b h with _ | i
    · simp [vm_bridge_can_stop, hlk] at hcs
    · rcases hvm : i.vm with _ | s
      · simp [vm_bridge_can_stop, hlk, hvm] at hcs
      · refine ⟨i, rfl, ?_⟩
        simp only [vm_bridge_can_stop, hlk, hvm] at hcs
        cases s <;> simp_all [canStopState, stopTransition]

theorem can_start_can_stop_total_witness :
    vm_bridge_can_start BridgeState.init 3 = false
    ∧ vm_bridge_can_stop BridgeState.init 3 = false :=
  can_start_can_stop_total.1 BridgeState.init 3 (by rfl)

end VMBridge
